import Mathlib

/-!
Verification of the node-binance-trader signal engine.

The definitions below are a shallow embedding of the trading engine
(`src/trader/trader.ts`, together with the exchange façade in
`src/trader/apis/binance.ts`).  `BigNumber` decimals are modelled as exact
rationals (ℚ), JavaScript millisecond timestamps as ℤ, and JavaScript object
identity as an explicit `ref : ℕ` tag carried by each `TradeOpen`
(mutating an object through one reference is modelled by rewriting every
list entry carrying the same `ref`).  Fallible code that `throw`s strings is
modelled with `Except String`.
-/

namespace NBT

/-- Position type of a trade or signal (`types/bva.ts`). -/
inductive PositionType
| long
| short
deriving DecidableEq, Repr

/-- Real or virtual (paper) trading (`types/bva.ts`). -/
inductive TradingType
| real
| virtual
deriving DecidableEq, Repr

/-- Wallet kinds supported by the trader (`types/trader.ts`). -/
inductive WalletType
| spot
| margin
deriving DecidableEq, Repr

/-- Whether a signal opens or closes a position (`types/bva.ts`). -/
inductive EntryType
| ENTER
| EXIT
deriving DecidableEq, Repr

/-- Where a trade request came from (`types/trader.ts`). -/
inductive SourceType
| SIGNAL
| MANUAL
| REBALANCE
deriving DecidableEq, Repr

/-- Notification levels (`types/notifier.ts`). -/
inductive MessageType
| INFO
| SUCCESS
| WARN
| ERROR
deriving DecidableEq, Repr

/-- Funding models for LONG trades (`types/trader.ts`). -/
inductive LongFundsType
| NONE
| BORROW_MIN
| BORROW_ALL
| SELL_ALL
| SELL_LARGEST
| SELL_LARGEST_PNL
deriving DecidableEq, Repr

/-- Minimum / optional maximum bounds for the order cost (ccxt market limits). -/
structure CostLimits where
  min : ℚ
  max : Option ℚ
deriving DecidableEq, Repr

/-- Minimum / optional maximum bounds for the order quantity (ccxt market limits). -/
structure AmountLimits where
  min : ℚ
  max : Option ℚ
deriving DecidableEq, Repr

/-- The limits object of a ccxt market; `marketMax` is the hidden
`limits.market.max` property read by `getLegalQty`. -/
structure MarketLimits where
  amount : AmountLimits
  cost : Option CostLimits
  marketMax : Option ℚ
deriving DecidableEq, Repr

/-- A ccxt market enriched with the cross-margin flag (`loadMarkets`).
`step` is the amount step size implied by the market's precision; it is what
`binanceClient.amountToPrecision` quantises to. -/
structure Market where
  symbol : String
  base : String
  quote : String
  active : Bool
  spot : Bool
  margin : Bool
  limits : MarketLimits
  step : ℚ
deriving DecidableEq, Repr

/-- The engine's record of a live position (`types/bva.ts`).  `ref` models
JavaScript object identity and is not a data field of the source class. -/
structure TradeOpen where
  ref : ℕ
  id : String
  isStopped : Bool
  isHodl : Bool
  positionType : PositionType
  tradingType : TradingType
  priceBuy : Option ℚ
  priceSell : Option ℚ
  quantity : ℚ
  cost : Option ℚ
  borrow : Option ℚ
  wallet : Option WalletType
  strategyId : String
  strategyName : String
  symbol : String
  timeUpdated : ℤ
  timeBuy : Option ℤ
  timeSell : Option ℤ
  isExecuted : Bool
deriving DecidableEq, Repr

/-- A strategy followed from the hub (`types/bva.ts`). -/
structure Strategy where
  id : String
  name : String
  tradingType : TradingType
  isActive : Bool
  isStopped : Bool
  lossTradeRun : ℕ
  tradeAmount : ℚ
deriving DecidableEq, Repr

/-- A trading signal received from the hub (`types/bva.ts`). -/
structure Signal where
  strategyId : String
  strategyName : String
  symbol : String
  entryType : EntryType
  positionType : Option PositionType
  price : Option ℚ
  timestamp : ℤ
deriving DecidableEq, Repr

/-- The environment configuration slice used by the embedded functions
(`env.ts`); JavaScript numbers are modelled as ℚ and truthiness of a
numeric option as being non-zero. -/
structure Env where
  TAKER_FEE_PERCENT : ℚ
  MIN_COST_BUFFER : ℚ
  WALLET_BUFFER : ℚ
  STRATEGY_LOSS_LIMIT : ℚ
  STRATEGY_LIMIT_THRESHOLD : ℚ
  MAX_LONG_TRADES : ℚ
  MAX_SHORT_TRADES : ℚ
  IS_TRADE_SHORT_ENABLED : Bool
  IS_TRADE_MARGIN_ENABLED : Bool
  IS_FUNDS_NO_LOSS : Bool
  TRADE_LONG_FUNDS : LongFundsType
  EXCLUDE_COINS : List String
deriving Repr

/-- JavaScript truthiness of an optional number (`x && ...`). -/
def truthy (o : Option ℚ) : Bool :=
  match o with
  | some v => v ≠ 0
  | none => false

/-- `calculatePnL` (trader.ts lines 1933-1939): profit or loss between two
prices including the taker fee on both legs, as a percentage. -/
def calculatePnL (env : Env) (priceBuy priceSell : ℚ) : ℚ :=
  let buyFee : ℚ := 1 + env.TAKER_FEE_PERCENT / 100
  let sellFee : ℚ := 1 - env.TAKER_FEE_PERCENT / 100
  (priceSell * sellFee - priceBuy * buyFee) / (priceBuy * buyFee) * 100

/-- `getOpenTradeCount` (trader.ts lines 2587-2594): number of open trades of
the given position type and trading type that are neither stopped nor HODL. -/
def getOpenTradeCount (tradesOpen : List TradeOpen) (positionType : PositionType)
    (tradingType : TradingType) : ℕ :=
  (tradesOpen.filter (fun tradeOpen =>
    tradeOpen.positionType == positionType &&
    !tradeOpen.isStopped && !tradeOpen.isHodl &&
    tradeOpen.tradingType == tradingType)).length

/-- `getStratOpenTrades` (trader.ts lines 2597-2599): all open trades for a
strategy that are not stopped or HODL. -/
def getStratOpenTrades (tradesOpen : List TradeOpen) (strategy : Strategy) :
    List TradeOpen :=
  tradesOpen.filter (fun trade =>
    trade.strategyId == strategy.id && !trade.isStopped && !trade.isHodl)

/-- `getMinCost` (trader.ts lines 2602-2608): minimum trade cost with the
`MIN_COST_BUFFER` slippage buffer applied. -/
def getMinCost (env : Env) (market : Market) : ℚ :=
  match market.limits.cost with
  | some c => c.min * (1 + env.MIN_COST_BUFFER)
  | none => 0

/-- Modelled from the spec: `amountToPrecision(symbol, qty)` "applies step
size and precision" (spec §4.7).  The wrapper in `apis/binance.ts` lines
291-294 delegates to the ccxt client, which is not part of src/; ccxt
truncates the quantity down to a whole number of the market's amount steps. -/
def amountToPrecision (market : Market) (qty : ℚ) : ℚ :=
  market.step * (⌊qty / market.step⌋ : ℤ)

/-- `getLegalQty` (trader.ts lines 2612-2659): clamps an order quantity to the
market's amount limits, bumps it to satisfy the buffered minimum cost, and
quantises it to the market's precision. -/
def getLegalQty (env : Env) (qty : ℚ) (market : Market) (price : ℚ) : ℚ :=
  let qty := if qty < market.limits.amount.min then market.limits.amount.min else qty
  let qty :=
    match market.limits.amount.max with
    | some mx => if truthy (some mx) && qty > mx then mx else qty
    | none => qty
  let qty :=
    match market.limits.marketMax with
    | some mx => if truthy (some mx) && qty > mx then mx else qty
    | none => qty
  match market.limits.cost with
  | none => amountToPrecision market qty
  | some climits =>
    let cost := qty * price
    let minCost := getMinCost env market
    let qty := if cost < minCost then minCost / price else qty
    let qty :=
      match climits.max with
      | some mx => if truthy (some mx) && cost > mx then mx / price else qty
      | none => qty
    let qty := amountToPrecision market qty
    let cost := qty * price
    let qty := if cost < minCost then qty + market.limits.amount.min else qty
    amountToPrecision market qty

/-- Milliseconds per UTC day. -/
def dayMs : ℤ := 86400000

/-- Modelled from the spec: the `BalanceHistory` constructor
(`src/trader/types/trader.ts`, not included under src/) locks its `date` to
the start of the current UTC day ("ordered list per UTC day", spec §3). -/
def utcDayStart (now : ℤ) : ℤ := now - now % dayMs

/-- One per-day slice of the balance history (`types/trader.ts`, fields per
spec §3). -/
structure BalanceHistory where
  date : ℤ
  openBalance : ℚ
  closeBalance : ℚ
  estimatedFees : ℚ
  profitLoss : ℚ
  minOpenTrades : Option ℤ
  maxOpenTrades : Option ℤ
  totalOpenedTrades : ℕ
  totalClosedTrades : ℕ
deriving DecidableEq, Repr

/-- Modelled from the spec: `new BalanceHistory(balance)` starts the current
UTC day with equal open and close balances and zeroed fees and counters
(spec §3). -/
def BalanceHistory.make (now : ℤ) (balance : ℚ) : BalanceHistory :=
  { date := utcDayStart now
    openBalance := balance
    closeBalance := balance
    estimatedFees := 0
    profitLoss := 0
    minOpenTrades := none
    maxOpenTrades := none
    totalOpenedTrades := 0
    totalClosedTrades := 0 }

/-- Modelled from the spec: the `new Date(fullYear-1, month, date)` cutoff of
trader.ts line 2446, one calendar year before the current day (approximated
as 365 days; the claims do not depend on leap years). -/
def lastYearCutoff (now : ℤ) : ℤ := utcDayStart now - 365 * dayMs

/-- The slice of the process-wide `tradingMetaData` container that the
embedded operations read and write (trader.ts lines 48-58).  Dictionaries are
modelled as lookup functions; `tradesClosing` holds the `ref`s of the members
of the closing set (a JS `Set` of object references). -/
structure TradingMetaData where
  strategies : String → Option Strategy
  tradesOpen : List TradeOpen
  tradesClosing : List ℕ
  markets : String → Option Market
  prices : String → Option ℚ
  balanceHistory : TradingType → String → List BalanceHistory

/-- The predicate of `getTradeOpenFiltered` (trader.ts lines 2508-2517): an
open trade matches when strategy and symbol agree, and the position type
agrees whenever the probe carries one. -/
def matchesTrade (strategyId symbol : String) (positionType : Option PositionType)
    (tradeOpen : TradeOpen) : Bool :=
  tradeOpen.strategyId == strategyId && tradeOpen.symbol == symbol &&
  (match positionType with
   | some pt => tradeOpen.positionType == pt
   | none => true)

/-- `getTradeOpenFiltered` (trader.ts lines 2508-2517). -/
def getTradeOpenFiltered (strategyId symbol : String) (positionType : Option PositionType)
    (trades : List TradeOpen) : List TradeOpen :=
  trades.filter (matchesTrade strategyId symbol positionType)

/-- `getTradeOpen` (trader.ts lines 2487-2506): the unique matching open
trade; with several matches the first is used when the probe has a position
type, otherwise nothing is returned. -/
def getTradeOpen (strategyId symbol : String) (positionType : Option PositionType)
    (trades : List TradeOpen) : Option TradeOpen :=
  let tradesOpenFiltered := getTradeOpenFiltered strategyId symbol positionType trades
  if tradesOpenFiltered.length == 0 then none
  else if tradesOpenFiltered.length > 1 then
    match positionType with
    | some _ => tradesOpenFiltered.head?
    | none => none
  else tradesOpenFiltered.head?

/-- `getTradeOpen` applied to a `Signal` probe. -/
def getTradeOpenSignal (signal : Signal) (trades : List TradeOpen) : Option TradeOpen :=
  getTradeOpen signal.strategyId signal.symbol signal.positionType trades

/-- `getTradeOpen` applied to a `TradeOpen` probe (used by `scheduleTrade`
to find the parent of a failed rebalance child). -/
def getTradeOpenTrade (tradeOpen : TradeOpen) (trades : List TradeOpen) : Option TradeOpen :=
  getTradeOpen tradeOpen.strategyId tradeOpen.symbol (some tradeOpen.positionType) trades

/-- `checkSymbol` (trader.ts lines 812-854): validates that the symbol can
still be traded, optionally on a given wallet. -/
def checkSymbol (env : Env) (markets : String → Option Market) (symbol : String)
    (wallet : Option WalletType) : Except String Market :=
  match markets symbol with
  | none => .error "no market data for symbol"
  | some market =>
    if !env.EXCLUDE_COINS.isEmpty &&
        (env.EXCLUDE_COINS.contains market.base || env.EXCLUDE_COINS.contains market.quote) then
      .error "trading is excluded for symbol"
    else if !market.active then
      .error "market is inactive"
    else
      match wallet with
      | some w =>
        if !(if w == WalletType.spot then market.spot else market.margin) then
          .error "wallet trading is not available for symbol"
        else .ok market
      | none =>
        if !market.spot && !market.margin then
          .error "neither margin nor spot trading is available"
        else .ok market

/-- The validated data returned by `checkTradingData` (`types/trader.ts`);
`strategy` may be absent for manual closes of unfollowed strategies. -/
structure TradingData where
  market : Market
  signal : Signal
  strategy : Option Strategy
deriving Repr

/-- The loss-limit tripwire condition of `checkTradingData` (trader.ts line
903): the strategy has reached the threshold of its losing-trade run and
already has enough open trades to reach the limit if they all lose. -/
def lossLimitHit (env : Env) (tradesOpen : List TradeOpen) (strat : Strategy) : Bool :=
  truthy (some env.STRATEGY_LOSS_LIMIT) &&
  decide (env.STRATEGY_LOSS_LIMIT * env.STRATEGY_LIMIT_THRESHOLD ≤ (strat.lossTradeRun : ℚ)) &&
  decide (env.STRATEGY_LOSS_LIMIT - (strat.lossTradeRun : ℚ) ≤
    ((getStratOpenTrades tradesOpen strat).length : ℚ))

/-- The trading type recorded in `TradingData.strategy`; the source accesses
`strategy.tradingType` only on paths where the strategy is known (enter
signals), so the default is unreachable there. -/
def stratTradingType (strategy : Option Strategy) : TradingType :=
  match strategy with
  | some strat => strat.tradingType
  | none => TradingType.real

/-- Final section of `checkTradingData` (trader.ts lines 975-1036): the price
must be present, and the position type decides the max-trade and margin
restrictions. -/
def checkTradingDataTail (env : Env) (meta : TradingMetaData) (market : Market)
    (signal : Signal) (strategy : Option Strategy) : Except String TradingData :=
  if !truthy signal.price then .error "price was missing"
  else
    match signal.positionType with
    | some PositionType.long =>
      if signal.entryType == EntryType.ENTER && truthy (some env.MAX_LONG_TRADES) &&
          decide (env.MAX_LONG_TRADES ≤
            (getOpenTradeCount meta.tradesOpen PositionType.long (stratTradingType strategy) : ℚ)) then
        .error "maximum number of long trades has been reached"
      else .ok { market := market, signal := signal, strategy := strategy }
    | some PositionType.short =>
      if signal.entryType == EntryType.ENTER && !env.IS_TRADE_SHORT_ENABLED then
        .error "short trading is disabled"
      else if signal.entryType == EntryType.ENTER && !env.IS_TRADE_MARGIN_ENABLED then
        .error "margin trading is disabled but is required for short trading"
      else if signal.entryType == EntryType.ENTER && truthy (some env.MAX_SHORT_TRADES) &&
          decide (env.MAX_SHORT_TRADES ≤
            (getOpenTradeCount meta.tradesOpen PositionType.short (stratTradingType strategy) : ℚ)) then
        .error "maximum number of short trades has been reached"
      else if !market.margin then
        .error "margin trading is unavailable for a short position on symbol"
      else .ok { market := market, signal := signal, strategy := strategy }
    | none => .error "position type other than long or short"

/-- The exit-signal defaults of `checkTradingData` (trader.ts lines
930-941): the position type and price of an exit signal default from the
matching open trade when falsy. -/
def exitSignalDefaults (signal : Signal) (topen : TradeOpen) : Signal :=
  let signal :=
    if signal.positionType.isNone then { signal with positionType := some topen.positionType }
    else signal
  if !truthy signal.price then
    { signal with price := if truthy topen.priceBuy then topen.priceBuy
                           else topen.priceSell }
  else signal

/-- Exit branch of `checkTradingData` (trader.ts lines 909-969): the trade
must exist, must not already be closing or stopped, position type and price
default from the open trade, and stopped/HODL trades may only close
automatically at a profit.  The non-null price assertions of the source are
modelled with a default of 0 (they only feed `calculatePnL` on this path). -/
def checkTradingDataExit (env : Env) (meta : TradingMetaData) (market : Market)
    (signal : Signal) (strategy : Option Strategy) (source : SourceType)
    (tradeOpen : Option TradeOpen) : Except String TradingData :=
  match tradeOpen with
  | none => .error "no associated open trade found"
  | some topen =>
    if meta.tradesClosing.contains topen.ref then
      .error "trade is already closing"
    else if source == SourceType.SIGNAL && topen.isStopped then
      .error "trade is stopped"
    else
      let signal := exitSignalDefaults signal topen
      if truthy signal.price then
        let price := signal.price.getD 0
        let percent :=
          if signal.positionType == some PositionType.long then
            calculatePnL env (topen.priceBuy.getD 0) price
          else
            calculatePnL env price (topen.priceSell.getD 0)
        if ((strategy.map Strategy.isStopped).getD true || topen.isHodl) &&
            source == SourceType.SIGNAL then
          if percent < 0 then
            .error "this trade will make another loss"
          else checkTradingDataTail env meta market signal strategy
        else checkTradingDataTail env meta market signal strategy
      else checkTradingDataTail env meta market signal strategy

/-- `checkTradingData` (trader.ts lines 857-1037): validates that a trading
signal is consistent with the selected strategies and configuration. -/
def checkTradingData (env : Env) (meta : TradingMetaData) (signal : Signal)
    (source : SourceType) : Except String TradingData :=
  let strategy := meta.strategies signal.strategyId
  let strategyCheck : Option String :=
    if source == SourceType.SIGNAL then
      match strategy with
      | none => some "strategy is not followed"
      | some strat => if !strat.isActive then some "strategy is not active" else none
    else none
  match strategyCheck with
  | some msg => .error msg
  | none =>
    let tradeOpen := getTradeOpenSignal signal meta.tradesOpen
    match checkSymbol env meta.markets signal.symbol (tradeOpen.bind TradeOpen.wallet) with
    | .error msg => .error msg
    | .ok market =>
      match signal.entryType with
      | EntryType.ENTER =>
        match strategy with
        | none => .error "strategy has been stopped"
        | some strat =>
          if strat.isStopped then .error "strategy has been stopped"
          else if tradeOpen.isSome then
            .error "an existing open trade was already found"
          else if lossLimitHit env meta.tradesOpen strat then
            .error "reached the threshold for limiting open trades"
          else checkTradingDataTail env meta market signal strategy
      | EntryType.EXIT =>
        checkTradingDataExit env meta market signal strategy source tradeOpen

/-- The sizing result of `calculateTradeSize` consumed by `createTradeOpen`
(trader.ts lines 2210-2215).  Sizing is an exchange-dependent computation, so
the `trade` step below takes it as an input. -/
structure Sizing where
  quantity : ℚ
  cost : ℚ
  borrow : ℚ
  wallet : WalletType
deriving Repr

/-- Construction of the new `TradeOpen` at the end of `createTradeOpen`
(trader.ts lines 2254-2273), with the computed sizing passed in.  `newRef`
is the fresh object identity and `id` the generated short id. -/
def createTradeOpenPure (d : TradingData) (sizing : Sizing) (newRef : ℕ) (id : String)
    (now : ℤ) : TradeOpen :=
  { ref := newRef
    id := id
    isStopped := false
    isHodl := false
    positionType := (d.signal.positionType).getD PositionType.long
    tradingType := stratTradingType d.strategy
    priceBuy := if d.signal.positionType == some PositionType.long then d.signal.price else none
    priceSell := if d.signal.positionType == some PositionType.short then d.signal.price else none
    quantity := sizing.quantity
    cost := some sizing.cost
    borrow := some sizing.borrow
    wallet := some sizing.wallet
    strategyId := d.signal.strategyId
    strategyName := d.signal.strategyName
    symbol := d.signal.symbol
    timeUpdated := now
    timeBuy := none
    timeSell := none
    isExecuted := false }

/-- Mutating a trade object in place: every list entry carrying the same
`ref` (the same JS object) is replaced by the updated value. -/
def updateTradeRef (trades : List TradeOpen) (tradeOpen : TradeOpen) : List TradeOpen :=
  trades.map (fun t => if t.ref == tradeOpen.ref then tradeOpen else t)

/-- `Set.add` on the closing set (membership by object reference). -/
def addClosing (closing : List ℕ) (ref : ℕ) : List ℕ :=
  if closing.contains ref then closing else closing ++ [ref]

/-- The state-updating part of `trade` (trader.ts lines 1657-1713): validate
the signal, then either create and push a new open trade (enter) or update
the prices and cost of the existing one and mark it closing (exit).  Queue
execution is modelled separately by `executeTradingTask`. -/
def trade (env : Env) (meta : TradingMetaData) (signal : Signal) (source : SourceType)
    (sizing : Sizing) (newRef : ℕ) (id : String) (now : ℤ) :
    TradingMetaData × Except String TradeOpen :=
  match checkTradingData env meta signal source with
  | .error msg => (meta, .error msg)
  | .ok d =>
    match d.signal.entryType with
    | EntryType.ENTER =>
      let tradeOpen := createTradeOpenPure d sizing newRef id now
      ({ meta with tradesOpen := meta.tradesOpen ++ [tradeOpen] }, .ok tradeOpen)
    | EntryType.EXIT =>
      match getTradeOpenSignal d.signal meta.tradesOpen with
      | none => (meta, .error "no associated open trade found")
      | some topen =>
        let topen := { topen with
          timeUpdated := now
          priceBuy := if d.signal.positionType == some PositionType.short then d.signal.price
                      else topen.priceBuy
          priceSell := if d.signal.positionType == some PositionType.short then topen.priceSell
                       else d.signal.price
          cost := some (topen.quantity * (d.signal.price.getD 0)) }
        ({ meta with
             tradesOpen := updateTradeRef meta.tradesOpen topen
             tradesClosing := addClosing meta.tradesClosing topen.ref },
         .ok topen)

/-- The count of concurrent open trades for this trading type and quote used
by `updateBalanceHistory` (trader.ts line 2428), including the one that has
just closed when the call carries an exit entry type. -/
def maxOpenTradeCount (tradesOpen : List TradeOpen) (markets : String → Option Market)
    (tradingType : TradingType) (quote : String) (entryType : Option EntryType) : ℤ :=
  ((tradesOpen.filter (fun trade =>
      trade.tradingType == tradingType &&
      (markets trade.symbol).map Market.quote == some quote)).length : ℤ) +
  (if entryType == some EntryType.EXIT then 1 else 0)

/-- The retention loop of `updateBalanceHistory` (trader.ts lines 2448-2452):
repeatedly drop the second slice while it is at least one year old, adding
its fees onto the running total (seeded from the first slice's fees). -/
def dropOldSlices (cutoff : ℤ) (fees : ℚ) : List BalanceHistory → ℚ × List BalanceHistory
| [] => (fees, [])
| h1 :: rest =>
  if h1.date ≤ cutoff then dropOldSlices cutoff (fees + h1.estimatedFees) rest
  else (fees, h1 :: rest)

/-- Retention step of `updateBalanceHistory` (trader.ts lines 2445-2453):
slices older than one year are dropped (never the first) and their fees are
rolled into the first slice. -/
def applyRetention (cutoff : ℤ) : List BalanceHistory → List BalanceHistory
| [] => []
| h0 :: rest =>
  let dropped := dropOldSlices cutoff h0.estimatedFees rest
  { h0 with estimatedFees := dropped.1 } :: dropped.2

/-- The per-slice statistics update of `updateBalanceHistory` (trader.ts
lines 2432-2443), applied to the latest slice. -/
def updateSliceStats (h : BalanceHistory) (balance : ℚ) (fee : Option ℚ)
    (minCount maxCount : ℤ) (entryType : Option EntryType) : BalanceHistory :=
  let h := { h with estimatedFees := h.estimatedFees + fee.getD 0 }
  let h := { h with closeBalance := balance }
  let h := { h with profitLoss := h.closeBalance - h.openBalance + h.estimatedFees }
  let h := { h with minOpenTrades :=
    match h.minOpenTrades with
    | none => some minCount
    | some mn => if minCount < mn then some minCount else some mn }
  let h := { h with maxOpenTrades :=
    match h.maxOpenTrades with
    | none => some maxCount
    | some mx => if maxCount > mx then some maxCount else some mx }
  match entryType with
  | some EntryType.ENTER => { h with totalOpenedTrades := h.totalOpenedTrades + 1 }
  | some EntryType.EXIT => { h with totalClosedTrades := h.totalClosedTrades + 1 }
  | none => h

/-- `updateBalanceHistory` (trader.ts lines 2399-2456) acting on the history
list of one (tradingType, quote) pair; the dictionary bookkeeping of the
first two source lines is the caller's lookup/store of this list.  A zero
`change` or `fee` is falsy in the source and skipped there, which agrees
with adding 0 here. -/
def updateBalanceHistory (tradesOpen : List TradeOpen) (markets : String → Option Market)
    (tradingType : TradingType) (quote : String) (now : ℤ) (entryType : Option EntryType)
    (balanceIn : Option ℚ) (change : Option ℚ) (fee : Option ℚ)
    (hist : List BalanceHistory) : List BalanceHistory :=
  match hist.getLast?, balanceIn with
  | none, none => hist
  | last?, _ =>
    let balance := match balanceIn with
      | some b => b
      | none => (last?.map BalanceHistory.closeBalance).getD 0
    let tmpH := BalanceHistory.make now balance
    let hist := match last? with
      | none => hist ++ [tmpH]
      | some h => if h.date ≠ tmpH.date then hist ++ [tmpH] else hist
    let maxCount := maxOpenTradeCount tradesOpen markets tradingType quote entryType
    let minCount := maxCount - (if entryType.isSome then 1 else 0)
    let balance := balance + change.getD 0
    let hist := match hist.getLast? with
      | none => hist
      | some h => hist.dropLast ++ [updateSliceStats h balance fee minCount maxCount entryType]
    applyRetention (lastYearCutoff now) hist

/-- `removeTradeOpen` (trader.ts lines 2520-2527): removes a trade object
(identified by its `ref`) from the open trades. -/
def removeTradeOpen (trades : List TradeOpen) (ref : ℕ) : List TradeOpen :=
  trades.filter (fun t => t.ref ≠ ref)

/-- The ack channel assembled by `getTradingSequence` (trader.ts lines
1076-1125): `traded_buy_signal` or `traded_sell_signal` from the position
and entry type, or the empty (silent) channel for rebalance children. -/
def tradingSequenceChannel (tradeOpen : TradeOpen) (entryType : EntryType)
    (source : SourceType) : String :=
  let action : String :=
    match tradeOpen.positionType, entryType with
    | PositionType.long, EntryType.ENTER => "buy"
    | PositionType.long, EntryType.EXIT => "sell"
    | PositionType.short, EntryType.ENTER => "sell"
    | PositionType.short, EntryType.EXIT => "buy"
  if source != SourceType.REBALANCE then "traded_" ++ action ++ "_signal" else ""

/-- The environmental outcome of the exchange calls of one trading sequence:
`none` when the step is absent from the sequence, `some b` when the step runs
with success `b`.  The before step is the borrow, the after step the repay
(trader.ts lines 1104-1116). -/
structure TradingSequenceOutcome where
  beforeStep : Option Bool
  mainStep : Bool
  afterStep : Option Bool
deriving DecidableEq, Repr

/-- The state visible after running one queued trading task. -/
structure ExecEffects where
  meta : TradingMetaData
  tradeOpen : TradeOpen
  emits : List String
  notices : List MessageType

/-- `emitSignalTraded` (trader.ts lines 1583-1586): silent channels are not
sent to the hub. -/
def emitSignalTraded (channel : String) : List String :=
  if channel != "" then [channel] else []

/-- Post-trade accounting of `executeTradingTask` (trader.ts lines
1500-1580): mark the trade executed, remove it when this was an exit or a
manual close, update the strategy's losing run, and record fees and value
change in the balance history.  The BNB fee-token threshold check (line
1576) only emits notifications and is elided. -/
def executeTradingSuccess (env : Env) (meta : TradingMetaData) (tradeOpen : TradeOpen)
    (source : SourceType) (signal : Option Signal) (channel : String) :
    ExecEffects × Except String Unit :=
  let meta := { meta with tradesClosing := meta.tradesClosing.filter (fun r => r ≠ tradeOpen.ref) }
  let tradeOpen := { tradeOpen with isExecuted := true }
  let meta := { meta with tradesOpen := updateTradeRef meta.tradesOpen tradeOpen }
  match meta.markets tradeOpen.symbol with
  | none =>
    -- the source would fail with a TypeError here, rejecting the task
    (⟨meta, tradeOpen, emitSignalTraded channel, []⟩, .error "no market data for symbol")
  | some market =>
    let removed := (match signal with
      | some sig => sig.entryType == EntryType.EXIT
      | none => false) || source == SourceType.MANUAL
    let meta := if removed then
        { meta with tradesOpen := removeTradeOpen meta.tradesOpen tradeOpen.ref }
      else meta
    let changeAndPnL : Option (ℚ × ℚ) :=
      if truthy tradeOpen.priceBuy && truthy tradeOpen.priceSell &&
          (signal.isNone || (signal.map Signal.entryType) == some EntryType.EXIT) then
        let pb := tradeOpen.priceBuy.getD 0
        let ps := tradeOpen.priceSell.getD 0
        some (tradeOpen.quantity * ps - tradeOpen.quantity * pb, calculatePnL env pb ps)
      else none
    let stratAndNotices : (String → Option Strategy) × List MessageType :=
      match changeAndPnL, meta.strategies tradeOpen.strategyId, signal with
      | some (_, percent), some strat, some _ =>
        if source == SourceType.SIGNAL then
          if percent < 0 then
            let strat' := { strat with lossTradeRun := strat.lossTradeRun + 1 }
            if !strat.isStopped && truthy (some env.STRATEGY_LOSS_LIMIT) &&
                decide (env.STRATEGY_LOSS_LIMIT ≤ (strat'.lossTradeRun : ℚ)) then
              (fun sid => if sid = tradeOpen.strategyId then some { strat' with isStopped := true }
                          else meta.strategies sid,
               [MessageType.WARN])
            else
              (fun sid => if sid = tradeOpen.strategyId then some strat'
                          else meta.strategies sid, [])
          else
            (fun sid => if sid = tradeOpen.strategyId then some { strat with lossTradeRun := 0 }
                        else meta.strategies sid, [])
        else (meta.strategies, [])
      | _, _, _ => (meta.strategies, [])
    let meta := { meta with strategies := stratAndNotices.1 }
    let fee := -(tradeOpen.cost.getD 0 * (env.TAKER_FEE_PERCENT / 100))
    let histKey := (tradeOpen.tradingType, market.quote)
    let newHist := updateBalanceHistory meta.tradesOpen meta.markets tradeOpen.tradingType
      market.quote tradeOpen.timeUpdated (signal.map Signal.entryType) none
      (changeAndPnL.map Prod.fst) (some fee)
      (meta.balanceHistory histKey.1 histKey.2)
    let meta := { meta with balanceHistory := fun tt q =>
      if tt = histKey.1 ∧ q = histKey.2 then newHist else meta.balanceHistory tt q }
    (⟨meta, tradeOpen, emitSignalTraded channel,
      stratAndNotices.2 ++ [MessageType.SUCCESS]⟩, .ok ())

/-- `executeTradingTask` (trader.ts lines 1421-1580): run the before, main
and after steps; on failure mark the trade stopped when anything was already
done, always take the trade out of the closing set, and propagate the
error. -/
def executeTradingTask (env : Env) (meta : TradingMetaData) (tradeOpen : TradeOpen)
    (seq : TradingSequenceOutcome) (source : SourceType) (signal : Option Signal)
    (channel : String) : ExecEffects × Except String Unit :=
  match seq.beforeStep with
  | some false =>
    -- nothing has been done, so the trade is not stopped (lines 1440-1449)
    let meta := { meta with tradesClosing := meta.tradesClosing.filter (fun r => r ≠ tradeOpen.ref) }
    (⟨meta, tradeOpen, [], []⟩, .error "before step failed")
  | _ =>
    let anythingDone := seq.beforeStep == some true
    if !seq.mainStep then
      let tradeOpen := if anythingDone then { tradeOpen with isStopped := true } else tradeOpen
      let meta := if anythingDone then
          { meta with tradesOpen := updateTradeRef meta.tradesOpen tradeOpen }
        else meta
      let meta := { meta with tradesClosing := meta.tradesClosing.filter (fun r => r ≠ tradeOpen.ref) }
      (⟨meta, tradeOpen, [], []⟩, .error "main action step failed")
    else
      let emitsMain := emitSignalTraded channel
      match seq.afterStep with
      | some false =>
        -- the main action succeeded, so something was done (lines 1484-1497)
        let tradeOpen := { tradeOpen with isStopped := true }
        let meta := { meta with tradesOpen := updateTradeRef meta.tradesOpen tradeOpen }
        let meta := { meta with tradesClosing := meta.tradesClosing.filter (fun r => r ≠ tradeOpen.ref) }
        (⟨meta, tradeOpen, emitsMain, []⟩, .error "after step failed, trade has been stopped")
      | _ =>
        executeTradingSuccess env meta tradeOpen source signal channel

/-- `checkFailedCloseTrade` (trader.ts lines 687-748): when a manual close
failed to execute, a stopped (or unknown) trade is faked as closed back to
the hub; a known stopped trade is also removed from the open list.  The fake
trade construction (lines 701-713) only feeds the emitted payloads, so just
the emitted channels are modelled. -/
def checkFailedCloseTrade (meta : TradingMetaData) (signal : Signal) :
    TradingMetaData × List String × Bool :=
  if signal.positionType.isNone &&
      (getTradeOpenFiltered signal.strategyId signal.symbol signal.positionType
        meta.tradesOpen).length > 1 then
    (meta, [], false)
  else
    match getTradeOpenSignal signal meta.tradesOpen with
    | some topen =>
      if topen.isStopped then
        let chan := "traded_" ++
          (if topen.positionType == PositionType.short then "buy" else "sell") ++ "_signal"
        ({ meta with tradesOpen := removeTradeOpen meta.tradesOpen topen.ref }, [chan], true)
      else (meta, [], false)
    | none =>
      (meta, ["traded_buy_signal", "traded_sell_signal"], true)

/-- The effects of one queued task together with its error handler. -/
structure RunEffects where
  meta : TradingMetaData
  tradeOpen : TradeOpen
  emits : List String
  notices : List MessageType
  result : Except String Unit

/-- `scheduleTrade`'s queued closure together with its catch handler
(trader.ts lines 1601-1653): execute the task; on failure run the
source-specific compensation (fake close for manual, restore the parent for
rebalance, drop never-opened entries for signals) and send an error
notification. -/
def scheduleTradeRun (env : Env) (meta : TradingMetaData) (tradeOpen : TradeOpen)
    (seq : TradingSequenceOutcome) (source : SourceType) (signal : Option Signal)
    (channel : String) (now : ℤ) : RunEffects :=
  let r := executeTradingTask env meta tradeOpen seq source signal channel
  let eff := r.1
  match r.2 with
  | .ok _ => ⟨eff.meta, eff.tradeOpen, eff.emits, eff.notices, .ok ()⟩
  | .error reason =>
    match source with
    | SourceType.MANUAL =>
      let fixed := match signal with
        | some sig => checkFailedCloseTrade eff.meta sig
        | none => (eff.meta, [], false)
      ⟨fixed.1, eff.tradeOpen, eff.emits ++ fixed.2.1,
        eff.notices ++ [MessageType.ERROR], .error reason⟩
    | SourceType.REBALANCE =>
      match getTradeOpenTrade eff.tradeOpen eff.meta.tradesOpen with
      | some parentTrade =>
        if parentTrade.ref ≠ eff.tradeOpen.ref then
          let parent := { parentTrade with
            quantity := parentTrade.quantity + eff.tradeOpen.quantity
            cost := some (parentTrade.cost.getD 0 + eff.tradeOpen.cost.getD 0)
            timeUpdated := now }
          ⟨{ eff.meta with tradesOpen := updateTradeRef eff.meta.tradesOpen parent },
            eff.tradeOpen, eff.emits, eff.notices ++ [MessageType.ERROR], .error reason⟩
        else
          ⟨eff.meta, eff.tradeOpen, eff.emits, eff.notices ++ [MessageType.ERROR], .error reason⟩
      | none =>
        ⟨eff.meta, eff.tradeOpen, eff.emits, eff.notices ++ [MessageType.ERROR], .error reason⟩
    | SourceType.SIGNAL =>
      match signal with
      | some sig =>
        if sig.entryType == EntryType.ENTER && !eff.tradeOpen.isExecuted then
          ⟨{ eff.meta with tradesOpen := removeTradeOpen eff.meta.tradesOpen eff.tradeOpen.ref },
            eff.tradeOpen, eff.emits, eff.notices ++ [MessageType.ERROR], .error reason⟩
        else
          ⟨eff.meta, eff.tradeOpen, eff.emits, eff.notices ++ [MessageType.ERROR], .error reason⟩
      | none =>
        ⟨eff.meta, eff.tradeOpen, eff.emits, eff.notices ++ [MessageType.ERROR], .error reason⟩

/-- Transient per-wallet snapshot built by `loadWalletBalances`
(`types/trader.ts`, fields per spec §3): free and locked balance, scratch
potential and the candidate trades for rebalancing. -/
structure WalletData where
  type : WalletType
  free : ℚ
  locked : ℚ
  total : ℚ
  potential : Option ℚ
  trades : List TradeOpen
deriving Repr

/-- The largest-trade scan of `calculateTradeSize` (trader.ts lines
2064-2071): first trade with a truthy cost greater than every earlier one. -/
def findLargest (trades : List TradeOpen) : Option TradeOpen :=
  trades.foldl
    (fun largest trade =>
      if truthy trade.cost &&
          (largest.isNone ||
            decide ((largest.bind TradeOpen.cost).getD 0 < trade.cost.getD 0)) then
        some trade
      else largest)
    none

/-- The sell-largest branch of `calculateTradeSize` for one wallet
(trader.ts lines 2064-2078 and 2129-2135), applied after the exclusion
filtering: with no candidate, or a free balance already covering the largest
candidate, the potential is the free balance and nothing is rebalanced;
otherwise the potential is the midpoint of free and the largest cost and
only the largest trade is kept for rebalancing.  The `SELL_ALL` /
`SELL_LARGEST_PNL` re-selection loop (lines 2080-2127) is not taken for the
`SELL_LARGEST` model. -/
def sellLargestWallet (wallet : WalletData) : WalletData :=
  match findLargest wallet.trades with
  | none => { wallet with potential := some wallet.free, trades := [] }
  | some largest =>
    if wallet.free ≥ largest.cost.getD 0 then
      { wallet with potential := some wallet.free, trades := [] }
    else
      { wallet with potential := some ((wallet.free + largest.cost.getD 0) / 2)
                    trades := [largest] }

/-- The result of `rebalanceTrade`: the (possibly mutated) parent trade, the
adjusted wallet, the cloned child handed to `scheduleTrade` (if any), and the
returned error message (if any). -/
structure RebalanceResult where
  tradeOpen : TradeOpen
  wallet : WalletData
  scheduled : Option TradeOpen
  err : Option String
deriving Repr

/-- The effective sell price selected by `rebalanceTrade` (trader.ts lines
1741-1747): the cached market price when prices are current, falling back to
the trade's own sell price and finally its buy price when falsy. -/
def rebalanceSellPrice (prices : String → Option ℚ) (pricesFresh : Bool)
    (tradeOpen : TradeOpen) : ℚ :=
  let ps := if pricesFresh then prices tradeOpen.symbol else tradeOpen.priceSell
  if truthy ps then ps.getD 0 else tradeOpen.priceBuy.getD 0

/-- The legal sell quantity computed by `rebalanceTrade` (trader.ts lines
1750-1751): the target cost reduction at the effective sell price, snapped
to a legal quantity. -/
def rebalanceDiffQty (env : Env) (prices : String → Option ℚ) (pricesFresh : Bool)
    (tradeOpen : TradeOpen) (cost : ℚ) (market : Market) : ℚ :=
  let priceSell := rebalanceSellPrice prices pricesFresh tradeOpen
  getLegalQty env ((tradeOpen.cost.getD 0 - cost) / priceSell) market priceSell

/-- `rebalanceTrade` (trader.ts lines 1716-1804): reduce an existing long
trade towards a target remaining cost by scheduling a partial sell.  The
guards reject borrowed or priceless trades; the fences reject a sell whose
legal snap more than doubles the requested reduction, would consume the
whole position, or would leave an illegally small remainder.  `pricesFresh`
models `hasCurrentPrices()`; `childRef` is the identity of the clone. -/
def rebalanceTrade (env : Env) (markets : String → Option Market)
    (prices : String → Option ℚ) (pricesFresh : Bool) (tradeOpen : TradeOpen)
    (cost : ℚ) (wallet : WalletData) (now : ℤ) (childRef : ℕ) : RebalanceResult :=
  if !truthy tradeOpen.cost then ⟨tradeOpen, wallet, none, some "cost is undefined"⟩
  else
    let tcost := tradeOpen.cost.getD 0
    if 0 < tradeOpen.borrow.getD 0 then
      ⟨tradeOpen, wallet, none, some "involves borrowed funds"⟩
    else
      if !truthy tradeOpen.priceBuy then ⟨tradeOpen, wallet, none, some "no buy price"⟩
      else
        let priceBuy := tradeOpen.priceBuy.getD 0
        if tcost ≤ cost then
          -- already below the target cost: technically successful (line 1736)
          ⟨tradeOpen, wallet, none, none⟩
        else
          match markets tradeOpen.symbol with
          | none => ⟨tradeOpen, wallet, none, some "no market data for symbol"⟩
          | some market =>
            -- lines 1741-1747: the two priceSell mutations leave the field at
            -- exactly `some (rebalanceSellPrice ...)` (the fallback is the
            -- buy price checked non-falsy by the guard above)
            let priceSell := rebalanceSellPrice prices pricesFresh tradeOpen
            let targetDiffCost := tcost - cost
            let diffQTY := rebalanceDiffQty env prices pricesFresh tradeOpen cost market
            let diffCost := diffQTY * priceSell
            let tradeSell := { tradeOpen with priceSell := some priceSell }
            if 2 < diffCost / targetDiffCost then
              -- rounding inflated the sell too much: warn only (lines 1756-1760)
              ⟨tradeSell, wallet, none, none⟩
            else if tradeOpen.quantity ≤ diffQTY then
              ⟨tradeSell, wallet, none, some "would be more than the remaining quantity"⟩
            else
              let remQty := tradeOpen.quantity - diffQTY
              let legRemQty := getLegalQty env remQty market priceSell
              if remQty < legRemQty then
                ⟨tradeSell, wallet, none, some "remaining quantity may be too small to close later"⟩
              else
                let child := if tradeOpen.isExecuted then
                    some { tradeSell with ref := childRef, quantity := diffQTY, cost := some diffCost }
                  else none
                let tradeSell := if tradeOpen.isExecuted then
                    { tradeSell with timeSell := some now } else tradeSell
                let tradeSell := { tradeSell with
                  quantity := remQty
                  cost := some (tcost - diffCost)
                  timeUpdated := now }
                ⟨tradeSell,
                 { wallet with free := wallet.free + diffCost, locked := wallet.locked - diffCost },
                 child, none⟩

/-! ### Sample values used by the concrete witnesses -/

/-- A sample configuration (loss limit 3, threshold 0.5, taker fee 0.1%). -/
def sampleEnv : Env :=
  { TAKER_FEE_PERCENT := 1/10
    MIN_COST_BUFFER := 0
    WALLET_BUFFER := 0
    STRATEGY_LOSS_LIMIT := 3
    STRATEGY_LIMIT_THRESHOLD := 1/2
    MAX_LONG_TRADES := 0
    MAX_SHORT_TRADES := 0
    IS_TRADE_SHORT_ENABLED := true
    IS_TRADE_MARGIN_ENABLED := true
    IS_FUNDS_NO_LOSS := false
    TRADE_LONG_FUNDS := LongFundsType.SELL_LARGEST
    EXCLUDE_COINS := [] }

/-- A sample executed long trade used as a template by the witnesses. -/
def baseTrade : TradeOpen :=
  { ref := 0
    id := "t0"
    isStopped := false
    isHodl := false
    positionType := PositionType.long
    tradingType := TradingType.real
    priceBuy := some 100
    priceSell := none
    quantity := 1
    cost := some 100
    borrow := some 0
    wallet := some WalletType.spot
    strategyId := "s1"
    strategyName := "strat one"
    symbol := "ETHBTC"
    timeUpdated := 0
    timeBuy := none
    timeSell := none
    isExecuted := true }

/-! ### C7: round-trip PnL at a flat price -/

/-- C7: for every positive price `p`, `calculatePnL p p` equals exactly
`−2·TAKER_FEE_PERCENT / (1 + TAKER_FEE_PERCENT/100)` percent, as a
consequence of the fee being applied to both the buy and the sell leg. -/
theorem calculatePnL_roundtrip (env : Env) (p : ℚ) (hp : 0 < p)
    (hf : 0 ≤ env.TAKER_FEE_PERCENT) :
    calculatePnL env p p =
      -2 * env.TAKER_FEE_PERCENT / (1 + env.TAKER_FEE_PERCENT / 100) := by
  unfold calculatePnL
  have hp0 : p ≠ 0 := ne_of_gt hp
  have hden : (0 : ℚ) < 1 + env.TAKER_FEE_PERCENT / 100 := by positivity
  have hden0 : (1 : ℚ) + env.TAKER_FEE_PERCENT / 100 ≠ 0 := ne_of_gt hden
  field_simp
  ring

/-- C7 witness: at fee 0.1% and price 100 the round trip loses exactly
0.2/1.001 percent. -/
theorem calculatePnL_roundtrip_witness :
    (0 : ℚ) < 100 ∧ (0 : ℚ) ≤ sampleEnv.TAKER_FEE_PERCENT ∧
    calculatePnL sampleEnv 100 100 =
      -2 * sampleEnv.TAKER_FEE_PERCENT / (1 + sampleEnv.TAKER_FEE_PERCENT / 100) :=
  ⟨by norm_num, by norm_num [sampleEnv],
    calculatePnL_roundtrip sampleEnv 100 (by norm_num) (by norm_num [sampleEnv])⟩

/-! ### C10: validation counts ignore stopped and HODL trades -/

/-- C10: `getOpenTradeCount` and `getStratOpenTrades` are blind to stopped
and HODL trades: inserting such a trade changes neither, and every trade
returned by `getStratOpenTrades` belongs to the strategy and is neither
stopped nor HODL (so the max-trade and loss-limit rejections ignore stopped
and HODL open trades). -/
theorem openTradeCounts_ignore_stopped_hodl (trades : List TradeOpen) (t : TradeOpen)
    (strat : Strategy) (pt : PositionType) (tt : TradingType)
    (h : t.isStopped = true ∨ t.isHodl = true) :
    getOpenTradeCount (t :: trades) pt tt = getOpenTradeCount trades pt tt ∧
    getStratOpenTrades (t :: trades) strat = getStratOpenTrades trades strat ∧
    (∀ u, u ∈ getStratOpenTrades trades strat ↔
      u ∈ trades ∧ u.strategyId = strat.id ∧ u.isStopped = false ∧ u.isHodl = false) := by
  have hpred : (t.positionType == pt && !t.isStopped && !t.isHodl && t.tradingType == tt) = false := by
    rcases h with h | h <;> simp [h]
  have hpred2 : (t.strategyId == strat.id && !t.isStopped && !t.isHodl) = false := by
    rcases h with h | h <;> simp [h]
  refine ⟨?_, ?_, ?_⟩
  · simp [getOpenTradeCount, List.filter_cons, hpred]
  · simp [getStratOpenTrades, List.filter_cons, hpred2]
  · intro u
    simp only [getStratOpenTrades, List.mem_filter, Bool.and_eq_true, beq_iff_eq,
      Bool.not_eq_true']
    tauto

/-- C10 witness: a stopped long trade is invisible to both counters. -/
theorem openTradeCounts_ignore_stopped_hodl_witness :
    (({ baseTrade with isStopped := true } : TradeOpen).isStopped = true ∨
      ({ baseTrade with isStopped := true } : TradeOpen).isHodl = true) ∧
    getOpenTradeCount [{ baseTrade with isStopped := true }] PositionType.long TradingType.real =
      getOpenTradeCount [] PositionType.long TradingType.real :=
  ⟨Or.inl rfl,
    (openTradeCounts_ignore_stopped_hodl [] { baseTrade with isStopped := true }
      { id := "s1", name := "strat one", tradingType := TradingType.real,
        isActive := true, isStopped := false, lossTradeRun := 0, tradeAmount := 1 }
      PositionType.long TradingType.real (Or.inl rfl)).1⟩

/-! ### C5: the sell-largest funding model -/

/-- C5: under the sell-largest model, a wallet whose free balance is below
the cost of its largest candidate trade gets potential
`(free + largest.cost) / 2` and only that largest trade selected for
rebalancing; with no candidate, or free already covering the largest, the
potential is the free balance and nothing is rebalanced. -/
theorem sellLargestWallet_spec (wallet : WalletData) :
    (∀ largest, findLargest wallet.trades = some largest →
      wallet.free < largest.cost.getD 0 →
      (sellLargestWallet wallet).potential = some ((wallet.free + largest.cost.getD 0) / 2) ∧
      (sellLargestWallet wallet).trades = [largest]) ∧
    (findLargest wallet.trades = none →
      (sellLargestWallet wallet).potential = some wallet.free ∧
      (sellLargestWallet wallet).trades = []) ∧
    (∀ largest, findLargest wallet.trades = some largest →
      largest.cost.getD 0 ≤ wallet.free →
      (sellLargestWallet wallet).potential = some wallet.free ∧
      (sellLargestWallet wallet).trades = []) := by
  refine ⟨?_, ?_, ?_⟩
  · intro largest hfound hlt
    simp [sellLargestWallet, hfound, not_le.mpr hlt]
  · intro hnone
    simp [sellLargestWallet, hnone]
  · intro largest hfound hle
    simp [sellLargestWallet, hfound, hle]

/-- The larger candidate trade of scenario S3 (cost 0.02). -/
def tradeA : TradeOpen := { baseTrade with ref := 1, cost := some (2/100) }

/-- The smaller candidate trade of scenario S3 (cost 0.01). -/
def tradeB : TradeOpen := { baseTrade with ref := 2, cost := some (1/100) }

/-- The candidate wallet of scenario S3: free 0.005, two candidates. -/
def sampleWalletS3 : WalletData :=
  { type := WalletType.spot, free := 5/1000, locked := 3/100, total := 7/200,
    potential := none, trades := [tradeA, tradeB] }

/-- C5 witness (scenario S3): candidates with costs 0.02 and 0.01 and free
balance 0.005 give potential (0.005+0.02)/2 = 0.0125, rebalancing only the
largest. -/
theorem sellLargestWallet_spec_witness :
    findLargest sampleWalletS3.trades = some tradeA ∧
    sampleWalletS3.free < tradeA.cost.getD 0 ∧
    (sellLargestWallet sampleWalletS3).potential = some (1/80) ∧
    (sellLargestWallet sampleWalletS3).trades = [tradeA] := by
  have hfound : findLargest sampleWalletS3.trades = some tradeA := by
    simp only [sampleWalletS3, tradeA, tradeB, baseTrade, findLargest, List.foldl, truthy]
    norm_num
  have hlt : sampleWalletS3.free < tradeA.cost.getD 0 := by
    norm_num [sampleWalletS3, tradeA, baseTrade]
  have h := (sellLargestWallet_spec sampleWalletS3).1 tradeA hfound hlt
  refine ⟨hfound, hlt, ?_, h.2⟩
  rw [h.1]
  norm_num [sampleWalletS3, tradeA, baseTrade]

/-! ### C6: rebalance fences leave the parent untouched -/

/-- C6: whenever a fence trips — the legal (snapped) sell cost is more than
twice the requested cost reduction, the legal sell quantity reaches the
parent's whole quantity, or the remainder would fall below the legal minimum
quantity — `rebalanceTrade` leaves the parent's quantity and cost unchanged
and schedules no child sell. -/
theorem rebalanceTrade_fence_rejects
    (env : Env) (markets : String → Option Market) (prices : String → Option ℚ)
    (pricesFresh : Bool) (tradeOpen : TradeOpen) (cost : ℚ) (wallet : WalletData)
    (now : ℤ) (childRef : ℕ)
    (hfence :
      (∀ market, markets tradeOpen.symbol = some market →
        2 < rebalanceDiffQty env prices pricesFresh tradeOpen cost market *
              rebalanceSellPrice prices pricesFresh tradeOpen /
              (tradeOpen.cost.getD 0 - cost) ∨
        tradeOpen.quantity ≤ rebalanceDiffQty env prices pricesFresh tradeOpen cost market ∨
        tradeOpen.quantity - rebalanceDiffQty env prices pricesFresh tradeOpen cost market <
          getLegalQty env
            (tradeOpen.quantity - rebalanceDiffQty env prices pricesFresh tradeOpen cost market)
            market (rebalanceSellPrice prices pricesFresh tradeOpen))) :
    (rebalanceTrade env markets prices pricesFresh tradeOpen cost wallet now childRef).tradeOpen.quantity
      = tradeOpen.quantity ∧
    (rebalanceTrade env markets prices pricesFresh tradeOpen cost wallet now childRef).tradeOpen.cost
      = tradeOpen.cost ∧
    (rebalanceTrade env markets prices pricesFresh tradeOpen cost wallet now childRef).scheduled
      = none := by
  unfold rebalanceTrade
  dsimp only
  repeat' split
  all_goals try (refine ⟨?_, ?_, ?_⟩ <;> rfl)
  all_goals rcases hfence _ (by assumption) with hf | hf | hf
  all_goals exact absurd hf (by assumption)

/-- A market with trivial limits (no maxima, no cost limits, unit step). -/
def flatMarket : Market :=
  { symbol := "ETHBTC", base := "ETH", quote := "BTC", active := true, spot := true,
    margin := true,
    limits := { amount := { min := 0, max := none }, cost := none, marketMax := none },
    step := 1 }

/-- A parent trade whose whole quantity would be consumed by a rebalance. -/
def tradeC6 : TradeOpen := { baseTrade with quantity := 5, cost := some 10, priceBuy := some 1 }

/-- Markets dictionary holding only `flatMarket`. -/
def marketsC6 : String → Option Market :=
  fun s => if s = "ETHBTC" then some flatMarket else none

/-- An empty wallet snapshot. -/
def emptyWallet : WalletData :=
  { type := WalletType.spot, free := 0, locked := 0, total := 0, potential := none, trades := [] }

/-- C6 witness: reducing a 10-cost, 5-quantity parent to cost 1 needs a legal
sell of 9 units ≥ the parent's 5, so the second fence trips and the parent is
untouched with no child scheduled. -/
theorem rebalanceTrade_fence_rejects_witness :
    tradeC6.quantity ≤ rebalanceDiffQty sampleEnv (fun _ => none) false tradeC6 1 flatMarket ∧
    (rebalanceTrade sampleEnv marketsC6 (fun _ => none) false tradeC6 1 emptyWallet 0 99).tradeOpen.quantity
      = tradeC6.quantity ∧
    (rebalanceTrade sampleEnv marketsC6 (fun _ => none) false tradeC6 1 emptyWallet 0 99).tradeOpen.cost
      = tradeC6.cost ∧
    (rebalanceTrade sampleEnv marketsC6 (fun _ => none) false tradeC6 1 emptyWallet 0 99).scheduled
      = none := by
  have hdq : tradeC6.quantity ≤ rebalanceDiffQty sampleEnv (fun _ => none) false tradeC6 1 flatMarket := by
    norm_num [rebalanceDiffQty, rebalanceSellPrice, getLegalQty, amountToPrecision, getMinCost,
      truthy, tradeC6, baseTrade, flatMarket, sampleEnv]
  have h := rebalanceTrade_fence_rejects sampleEnv marketsC6 (fun _ => none) false tradeC6 1
    emptyWallet 0 99 (by
      intro market hm
      have hmm : flatMarket = market := by simpa [marketsC6, tradeC6, baseTrade] using hm
      subst hmm
      exact Or.inr (Or.inl hdq))
  exact ⟨hdq, h.1, h.2.1, h.2.2⟩

/-! ### C1 / C4: checkTradingData rejections and the open-trade key invariant -/

/-- The identifying key of an open trade. -/
def keyOf (t : TradeOpen) : String × String × PositionType :=
  (t.strategyId, t.symbol, t.positionType)

/-- At most one open trade exists per (strategyId, symbol, positionType). -/
def atMostOnePerKey (trades : List TradeOpen) : Prop :=
  ∀ sid sym pt,
    (trades.filter (fun t =>
      t.strategyId == sid && t.symbol == sym && t.positionType == pt)).length ≤ 1

lemma getTradeOpenSignal_mem {signal : Signal} {l : List TradeOpen} {t : TradeOpen}
    (h : getTradeOpenSignal signal l = some t) : t ∈ l := by
  unfold getTradeOpenSignal getTradeOpen at h
  dsimp only at h
  have hmem : ∀ {u : TradeOpen},
      (getTradeOpenFiltered signal.strategyId signal.symbol signal.positionType l).head? = some u →
      u ∈ l := by
    intro u hu
    exact List.mem_of_mem_filter (List.mem_of_mem_head? hu)
  split at h
  · exact Option.noConfusion h
  · split at h
    · split at h
      · exact hmem h
      · exact Option.noConfusion h
    · exact hmem h

lemma getTradeOpenSignal_none_enter {signal : Signal} {l : List TradeOpen}
    {pt : PositionType} (hpos : signal.positionType = some pt)
    (h : getTradeOpenSignal signal l = none) :
    ∀ u ∈ l, ¬(u.strategyId = signal.strategyId ∧ u.symbol = signal.symbol ∧
      u.positionType = pt) := by
  unfold getTradeOpenSignal getTradeOpen at h
  dsimp only at h
  rw [hpos] at h
  have hfil : getTradeOpenFiltered signal.strategyId signal.symbol (some pt) l = [] := by
    split at h
    · rename_i hz
      exact List.length_eq_zero.mp (by simpa using hz)
    · split at h
      · cases hw : (getTradeOpenFiltered signal.strategyId signal.symbol (some pt) l).head? with
        | none => exact List.head?_eq_none_iff.mp hw
        | some u => rw [hw] at h; exact Option.noConfusion h
      · cases hw : (getTradeOpenFiltered signal.strategyId signal.symbol (some pt) l).head? with
        | none => exact List.head?_eq_none_iff.mp hw
        | some u => rw [hw] at h; exact Option.noConfusion h
  intro u hu hkey
  have hmt : matchesTrade signal.strategyId signal.symbol (some pt) u = true := by
    simp [matchesTrade, hkey.1, hkey.2.1, hkey.2.2]
  exact absurd hmt (by
    simpa using List.filter_eq_nil_iff.mp hfil u hu)

lemma checkTradingDataTail_ok {env : Env} {meta : TradingMetaData} {market : Market}
    {s : Signal} {strat : Option Strategy} {d : TradingData}
    (h : checkTradingDataTail env meta market s strat = Except.ok d) :
    d.signal = s ∧ s.positionType.isSome := by
  unfold checkTradingDataTail at h
  repeat' split at h
  all_goals try exact Except.noConfusion h
  all_goals cases h
  all_goals exact ⟨rfl, by simp_all⟩

lemma checkTradingDataExit_ok_entryType {env : Env} {meta : TradingMetaData}
    {market : Market} {s : Signal} {strat : Option Strategy} {source : SourceType}
    {topen : Option TradeOpen} {d : TradingData}
    (h : checkTradingDataExit env meta market s strat source topen = Except.ok d) :
    d.signal.entryType = s.entryType := by
  have hdef : ∀ t : TradeOpen, (exitSignalDefaults s t).entryType = s.entryType := by
    intro t
    unfold exitSignalDefaults
    dsimp only
    split <;> split <;> rfl
  unfold checkTradingDataExit at h
  dsimp only at h
  repeat' split at h
  all_goals try exact Except.noConfusion h
  all_goals rw [(checkTradingDataTail_ok h).1, hdef]

lemma checkTradingData_ok_entryType {env : Env} {meta : TradingMetaData}
    {signal : Signal} {source : SourceType} {d : TradingData}
    (hok : checkTradingData env meta signal source = Except.ok d) :
    d.signal.entryType = signal.entryType := by
  unfold checkTradingData at hok
  dsimp only at hok
  repeat' split at hok
  all_goals try exact Except.noConfusion hok
  all_goals try exact (checkTradingDataTail_ok hok).1 ▸ rfl
  all_goals exact checkTradingDataExit_ok_entryType hok

lemma checkTradingData_ok_enter {env : Env} {meta : TradingMetaData}
    {signal : Signal} {source : SourceType} {d : TradingData}
    (hok : checkTradingData env meta signal source = Except.ok d)
    (he : signal.entryType = EntryType.ENTER) :
    d.signal = signal ∧ signal.positionType.isSome ∧
    getTradeOpenSignal signal meta.tradesOpen = none := by
  unfold checkTradingData at hok
  dsimp only at hok
  simp only [he] at hok
  repeat' split at hok
  all_goals try exact Except.noConfusion hok
  have htail := checkTradingDataTail_ok hok
  refine ⟨htail.1, htail.2, ?_⟩
  cases hfo : getTradeOpenSignal signal meta.tradesOpen with
  | none => rfl
  | some t => simp_all

lemma countP_updateTradeRef (l : List TradeOpen) (t : TradeOpen) (p : TradeOpen → Bool)
    (hrefs : (l.map TradeOpen.ref).Nodup) (t₀ : TradeOpen) (ht₀ : t₀ ∈ l)
    (href : t₀.ref = t.ref) (hp : p t = p t₀) :
    (updateTradeRef l t).countP p = l.countP p := by
  unfold updateTradeRef
  rw [List.countP_map]
  refine List.countP_congr ?_
  intro u hu
  simp only [Function.comp_apply]
  by_cases hr : u.ref == t.ref
  · have : u = t₀ := by
      refine List.inj_on_of_nodup_map hrefs hu ht₀ ?_
      rw [href]
      exact beq_iff_eq.mp hr
    rw [if_pos hr, hp, this]
  · rw [if_neg hr]

/-- C1: at most one trade in `tradesOpen` matches a given
(strategyId, symbol, positionType) at any time: `checkTradingData` rejects
every enter signal for which `getTradeOpen` already finds a matching open
trade (before any `TradeOpen` is created or pushed), and consequently one
`trade` step preserves the at-most-one-per-key invariant. -/
theorem trade_preserves_atMostOnePerKey (env : Env) (meta : TradingMetaData)
    (signal : Signal) (source : SourceType) (sizing : Sizing) (newRef : ℕ)
    (id : String) (now : ℤ)
    (hkeys : atMostOnePerKey meta.tradesOpen)
    (hrefs : (meta.tradesOpen.map TradeOpen.ref).Nodup) :
    (∀ t, getTradeOpenSignal signal meta.tradesOpen = some t →
      signal.entryType = EntryType.ENTER →
      ∀ d, checkTradingData env meta signal source ≠ Except.ok d) ∧
    atMostOnePerKey ((trade env meta signal source sizing newRef id now).1.tradesOpen) := by
  constructor
  · intro t hfound he d hok
    rcases checkTradingData_ok_enter hok he with ⟨-, -, hnone⟩
    rw [hfound] at hnone
    exact Option.noConfusion hnone
  · unfold trade
    dsimp only
    cases hok : checkTradingData env meta signal source with
    | error msg => exact hkeys
    | ok d =>
      dsimp only
      cases hd : d.signal.entryType with
      | ENTER =>
        have he : signal.entryType = EntryType.ENTER := by
          rw [← checkTradingData_ok_entryType hok, hd]
        rcases checkTradingData_ok_enter hok he with ⟨hsig, hpos, hnone⟩
        rcases Option.isSome_iff_exists.mp hpos with ⟨pt, hpt⟩
        have hmiss := getTradeOpenSignal_none_enter hpt hnone
        intro sid sym pt2
        simp only [List.filter_append, List.length_append]
        have hold := hkeys sid sym pt2
        set newT := createTradeOpenPure d sizing newRef id now with hnew
        by_cases hk : newT.strategyId == sid && newT.symbol == sym && newT.positionType == pt2
        · have hkey : newT.strategyId = signal.strategyId ∧ newT.symbol = signal.symbol ∧
              newT.positionType = pt := by
            refine ⟨?_, ?_, ?_⟩ <;> simp [hnew, createTradeOpenPure, hsig, hpt]
          have hzero :
              (meta.tradesOpen.filter (fun t =>
                t.strategyId == sid && t.symbol == sym && t.positionType == pt2)).length = 0 := by
            rw [List.length_eq_zero]
            refine List.filter_eq_nil_iff.mpr ?_
            intro u hu hcontra
            simp only [Bool.and_eq_true, beq_iff_eq] at hcontra hk
            exact hmiss u hu ⟨by rw [hcontra.1.1, ← hk.1.1, hkey.1],
              by rw [hcontra.1.2, ← hk.1.2, hkey.2.1],
              by rw [hcontra.2, ← hk.2, hkey.2.2]⟩
          rw [hzero]
          simp [List.filter_singleton, hk]
        · have hnil : (List.filter (fun t =>
              t.strategyId == sid && t.symbol == sym && t.positionType == pt2) [newT]).length = 0 := by
            simp [List.filter_singleton, hk]
          rw [hnil]
          simpa using hold
      | EXIT =>
        cases hfind : getTradeOpenSignal d.signal meta.tradesOpen with
        | none => exact hkeys
        | some topen =>
          dsimp only
          intro sid sym pt
          have hmem := getTradeOpenSignal_mem hfind
          have hcnt := countP_updateTradeRef meta.tradesOpen
            { topen with
              timeUpdated := now
              priceBuy := if d.signal.positionType == some PositionType.short then d.signal.price
                          else topen.priceBuy
              priceSell := if d.signal.positionType == some PositionType.short then topen.priceSell
                           else d.signal.price
              cost := some (topen.quantity * (d.signal.price.getD 0)) }
            (fun t => t.strategyId == sid && t.symbol == sym && t.positionType == pt)
            hrefs topen hmem rfl rfl
          calc (List.filter (fun t =>
                t.strategyId == sid && t.symbol == sym && t.positionType == pt)
                (updateTradeRef meta.tradesOpen
                  { topen with
                    timeUpdated := now
                    priceBuy := if d.signal.positionType == some PositionType.short then d.signal.price
                                else topen.priceBuy
                    priceSell := if d.signal.positionType == some PositionType.short then topen.priceSell
                                 else d.signal.price
                    cost := some (topen.quantity * (d.signal.price.getD 0)) })).length
              = (List.filter (fun t =>
                  t.strategyId == sid && t.symbol == sym && t.positionType == pt)
                  meta.tradesOpen).length := by
                rw [← List.countP_eq_length_filter, ← List.countP_eq_length_filter]
                exact hcnt
            _ ≤ 1 := hkeys sid sym pt

/-- Whether a validation result accepted the signal. -/
def exceptIsOk (e : Except String TradingData) : Bool :=
  match e with
  | .ok _ => true
  | .error _ => false

/-- An empty engine state. -/
def emptyMeta : TradingMetaData :=
  { strategies := fun _ => none
    tradesOpen := []
    tradesClosing := []
    markets := fun _ => none
    prices := fun _ => none
    balanceHistory := fun _ _ => [] }

/-- A long enter signal for strategy s1 on ETHBTC at price 100. -/
def sampleSignal : Signal :=
  { strategyId := "s1", strategyName := "strat one", symbol := "ETHBTC",
    entryType := EntryType.ENTER, positionType := some PositionType.long,
    price := some 100, timestamp := 0 }

/-- A sample sizing result. -/
def sampleSizing : Sizing :=
  { quantity := 1, cost := 100, borrow := 0, wallet := WalletType.spot }

/-- C1 witness: one `trade` step on the empty state keeps every
(strategyId, symbol, positionType) key at multiplicity at most one. -/
theorem trade_preserves_atMostOnePerKey_witness :
    (((trade sampleEnv emptyMeta sampleSignal SourceType.SIGNAL sampleSizing 7 "id7"
        0).1.tradesOpen).filter (fun t =>
      t.strategyId == "s1" && t.symbol == "ETHBTC" &&
      t.positionType == PositionType.long)).length ≤ 1 :=
  (trade_preserves_atMostOnePerKey sampleEnv emptyMeta sampleSignal SourceType.SIGNAL
      sampleSizing 7 "id7" 0
      (fun sid sym pt => by simp [emptyMeta])
      (by simp [emptyMeta])).2 "s1" "ETHBTC" PositionType.long

/-- C4: `checkTradingData` rejects an enter signal whenever the loss limit is
positive, the strategy's losing run has reached
`STRATEGY_LOSS_LIMIT × STRATEGY_LIMIT_THRESHOLD`, and the strategy already
has at least `STRATEGY_LOSS_LIMIT − lossTradeRun` open trades. -/
theorem checkTradingData_lossLimit_rejects (env : Env) (meta : TradingMetaData)
    (signal : Signal) (source : SourceType) (strat : Strategy)
    (hs : meta.strategies signal.strategyId = some strat)
    (he : signal.entryType = EntryType.ENTER)
    (hl : 0 < env.STRATEGY_LOSS_LIMIT)
    (hrun : env.STRATEGY_LOSS_LIMIT * env.STRATEGY_LIMIT_THRESHOLD ≤ (strat.lossTradeRun : ℚ))
    (hopen : env.STRATEGY_LOSS_LIMIT - (strat.lossTradeRun : ℚ) ≤
      ((getStratOpenTrades meta.tradesOpen strat).length : ℚ)) :
    exceptIsOk (checkTradingData env meta signal source) = false := by
  have hhit : lossLimitHit env meta.tradesOpen strat = true := by
    simp only [lossLimitHit, truthy, Bool.and_eq_true, decide_eq_true_eq]
    exact ⟨⟨ne_of_gt hl, hrun⟩, hopen⟩
  cases hok : checkTradingData env meta signal source with
  | error msg => rfl
  | ok d =>
    exfalso
    unfold checkTradingData at hok
    dsimp only at hok
    simp only [hs, he] at hok
    repeat' split at hok
    all_goals simp_all [hhit]

/-- The strategy of scenario S6: two consecutive losses so far. -/
def stratC4 : Strategy :=
  { id := "s1", name := "strat one", tradingType := TradingType.real,
    isActive := true, isStopped := false, lossTradeRun := 2, tradeAmount := 1 }

/-- The state of scenario S6: strategy s1 with two open trades. -/
def metaC4 : TradingMetaData :=
  { strategies := fun sid => if sid = "s1" then some stratC4 else none
    tradesOpen := [{ baseTrade with ref := 1, symbol := "AAABTC" },
                   { baseTrade with ref := 2, symbol := "BBBBTC" }]
    tradesClosing := []
    markets := fun _ => none
    prices := fun _ => none
    balanceHistory := fun _ _ => [] }

/-- C4 witness (scenario S6): limit 3, threshold 0.5, two consecutive losses
and two open trades reject a third enter signal. -/
theorem checkTradingData_lossLimit_rejects_witness :
    metaC4.strategies sampleSignal.strategyId = some stratC4 ∧
    sampleSignal.entryType = EntryType.ENTER ∧
    0 < sampleEnv.STRATEGY_LOSS_LIMIT ∧
    sampleEnv.STRATEGY_LOSS_LIMIT * sampleEnv.STRATEGY_LIMIT_THRESHOLD ≤
      (stratC4.lossTradeRun : ℚ) ∧
    sampleEnv.STRATEGY_LOSS_LIMIT - (stratC4.lossTradeRun : ℚ) ≤
      ((getStratOpenTrades metaC4.tradesOpen stratC4).length : ℚ) ∧
    exceptIsOk (checkTradingData sampleEnv metaC4 sampleSignal SourceType.SIGNAL) = false := by
  have hs : metaC4.strategies sampleSignal.strategyId = some stratC4 := by
    simp [metaC4, sampleSignal]
  have hl : (0 : ℚ) < sampleEnv.STRATEGY_LOSS_LIMIT := by norm_num [sampleEnv]
  have hrun : sampleEnv.STRATEGY_LOSS_LIMIT * sampleEnv.STRATEGY_LIMIT_THRESHOLD ≤
      (stratC4.lossTradeRun : ℚ) := by norm_num [sampleEnv, stratC4]
  have hopen : sampleEnv.STRATEGY_LOSS_LIMIT - (stratC4.lossTradeRun : ℚ) ≤
      ((getStratOpenTrades metaC4.tradesOpen stratC4).length : ℚ) := by
    simp only [getStratOpenTrades, metaC4, stratC4, baseTrade]
    norm_num [sampleEnv]
  exact ⟨hs, rfl, hl, hrun, hopen,
    checkTradingData_lossLimit_rejects sampleEnv metaC4 sampleSignal SourceType.SIGNAL
      stratC4 hs rfl hl hrun hopen⟩

/-! ### C2 / C3: partial-failure semantics of the execute task -/

lemma getTradeOpenTrade_mem {probe : TradeOpen} {l : List TradeOpen} {t : TradeOpen}
    (h : getTradeOpenTrade probe l = some t) : t ∈ l := by
  unfold getTradeOpenTrade getTradeOpen at h
  dsimp only at h
  have hmem : ∀ {u : TradeOpen},
      (getTradeOpenFiltered probe.strategyId probe.symbol (some probe.positionType) l).head? = some u →
      u ∈ l := by
    intro u hu
    exact List.mem_of_mem_filter (List.mem_of_mem_head? hu)
  split at h
  · exact Option.noConfusion h
  · split at h
    · exact hmem h
    · exact hmem h

/-- C2: when the after (repay) step fails after the before and main steps
succeeded, the queued task forces `isStopped := true` on the trade, sends an
error notification, and leaves the trade in the open-trade list (only its
`isStopped` flag changes). -/
theorem afterFail_stops_and_keeps_trade (env : Env) (meta : TradingMetaData)
    (tradeOpen : TradeOpen) (seq : TradingSequenceOutcome) (sig : Signal)
    (channel : String) (now : ℤ)
    (hb : seq.beforeStep ≠ some false)
    (hmain : seq.mainStep = true)
    (hafter : seq.afterStep = some false)
    (hsig : sig.entryType = EntryType.EXIT)
    (hmem : tradeOpen ∈ meta.tradesOpen) :
    (scheduleTradeRun env meta tradeOpen seq SourceType.SIGNAL (some sig) channel now).tradeOpen
      = { tradeOpen with isStopped := true } ∧
    (scheduleTradeRun env meta tradeOpen seq SourceType.SIGNAL (some sig) channel now).meta.tradesOpen
      = updateTradeRef meta.tradesOpen { tradeOpen with isStopped := true } ∧
    { tradeOpen with isStopped := true } ∈
      (scheduleTradeRun env meta tradeOpen seq SourceType.SIGNAL (some sig) channel now).meta.tradesOpen ∧
    MessageType.ERROR ∈
      (scheduleTradeRun env meta tradeOpen seq SourceType.SIGNAL (some sig) channel now).notices := by
  obtain ⟨bs, ms, as⟩ := seq
  dsimp only at hb hmain hafter
  subst hmain hafter
  have hkept : { tradeOpen with isStopped := true } ∈
      updateTradeRef meta.tradesOpen { tradeOpen with isStopped := true } := by
    unfold updateTradeRef
    exact List.mem_map.mpr ⟨tradeOpen, hmem, by simp⟩
  cases bs with
  | none =>
    simp [scheduleTradeRun, executeTradingTask, hsig, hkept]
  | some b =>
    cases b with
    | false => exact absurd rfl hb
    | true =>
      simp [scheduleTradeRun, executeTradingTask, hsig, hkept]

/-- An open trade carrying a margin loan, already executed. -/
def tradeC2 : TradeOpen := { baseTrade with ref := 3, borrow := some (6/1000) }

/-- State holding only `tradeC2`. -/
def metaC2 : TradingMetaData := { emptyMeta with tradesOpen := [tradeC2] }

/-- An exit signal for strategy s1 on ETHBTC. -/
def exitSignal : Signal := { sampleSignal with entryType := EntryType.EXIT }

/-- C2 witness: a failing repay after a successful sell stops the trade,
keeps it in the open list and raises an error notification. -/
theorem afterFail_stops_and_keeps_trade_witness :
    (scheduleTradeRun sampleEnv metaC2 tradeC2 ⟨none, true, some false⟩ SourceType.SIGNAL
        (some exitSignal) "traded_sell_signal" 5).tradeOpen
      = { tradeC2 with isStopped := true } ∧
    { tradeC2 with isStopped := true } ∈
      (scheduleTradeRun sampleEnv metaC2 tradeC2 ⟨none, true, some false⟩ SourceType.SIGNAL
        (some exitSignal) "traded_sell_signal" 5).meta.tradesOpen ∧
    MessageType.ERROR ∈
      (scheduleTradeRun sampleEnv metaC2 tradeC2 ⟨none, true, some false⟩ SourceType.SIGNAL
        (some exitSignal) "traded_sell_signal" 5).notices := by
  have h := afterFail_stops_and_keeps_trade sampleEnv metaC2 tradeC2 ⟨none, true, some false⟩
    exitSignal "traded_sell_signal" 5 (by simp) rfl rfl rfl
    (by simp [metaC2, emptyMeta])
  exact ⟨h.1, h.2.2.1, h.2.2.2⟩

/-- C3: when a queued task fails with nothing done on the exchange, an enter
signal whose trade was never executed has that trade removed from the open
list, and a rebalance child has its quantity and cost added back onto the
parent trade found by `getTradeOpen`. -/
theorem scheduleTradeRun_nothing_done_compensation (env : Env) (meta : TradingMetaData)
    (tradeOpen : TradeOpen) (sig : Signal) (channel : String) (now : ℤ)
    (parent : TradeOpen) :
    (tradeOpen.isExecuted = false → sig.entryType = EntryType.ENTER →
      (scheduleTradeRun env meta tradeOpen ⟨none, false, none⟩ SourceType.SIGNAL (some sig)
        channel now).meta.tradesOpen
        = removeTradeOpen meta.tradesOpen tradeOpen.ref) ∧
    (getTradeOpenTrade tradeOpen meta.tradesOpen = some parent →
      parent.ref ≠ tradeOpen.ref →
      (scheduleTradeRun env meta tradeOpen ⟨none, false, none⟩ SourceType.REBALANCE none
        channel now).meta.tradesOpen
        = updateTradeRef meta.tradesOpen
            { parent with
              quantity := parent.quantity + tradeOpen.quantity
              cost := some (parent.cost.getD 0 + tradeOpen.cost.getD 0)
              timeUpdated := now }) := by
  constructor
  · intro hexec hsig
    simp [scheduleTradeRun, executeTradingTask, hsig, hexec]
  · intro hfind hne
    simp [scheduleTradeRun, executeTradingTask, hfind, hne]

/-- A never-executed entry trade. -/
def tradeC3 : TradeOpen := { baseTrade with ref := 4, isExecuted := false }

/-- State holding only `tradeC3`. -/
def metaC3 : TradingMetaData := { emptyMeta with tradesOpen := [tradeC3] }

/-- A rebalance child of `parentC3` (same strategy, symbol and position). -/
def childC3 : TradeOpen := { baseTrade with ref := 9, quantity := 2, cost := some 20 }

/-- The rebalanced parent whose quantity and cost were optimistically
reduced. -/
def parentC3 : TradeOpen := { baseTrade with ref := 5, quantity := 3, cost := some 30 }

/-- State holding only `parentC3`. -/
def metaC3b : TradingMetaData := { emptyMeta with tradesOpen := [parentC3] }

/-- C3 witness: the failed unexecuted entry is dropped from the open list,
and the failed rebalance child restores quantity 2 and cost 20 onto the
parent (3 + 2 and 30 + 20). -/
theorem scheduleTradeRun_nothing_done_compensation_witness :
    tradeC3.isExecuted = false ∧
    (scheduleTradeRun sampleEnv metaC3 tradeC3 ⟨none, false, none⟩ SourceType.SIGNAL
      (some sampleSignal) "traded_buy_signal" 5).meta.tradesOpen = [] ∧
    getTradeOpenTrade childC3 metaC3b.tradesOpen = some parentC3 ∧
    (scheduleTradeRun sampleEnv metaC3b childC3 ⟨none, false, none⟩ SourceType.REBALANCE none
      "" 5).meta.tradesOpen
      = [{ parentC3 with quantity := 5, cost := some 50, timeUpdated := 5 }] := by
  have hfind : getTradeOpenTrade childC3 metaC3b.tradesOpen = some parentC3 := by
    simp [getTradeOpenTrade, getTradeOpen, getTradeOpenFiltered, matchesTrade,
      childC3, parentC3, baseTrade, metaC3b, emptyMeta]
  have h := scheduleTradeRun_nothing_done_compensation sampleEnv metaC3 tradeC3 sampleSignal
    "traded_buy_signal" 5 parentC3
  have h2 := scheduleTradeRun_nothing_done_compensation sampleEnv metaC3b childC3 sampleSignal
    "" 5 parentC3
  refine ⟨rfl, ?_, hfind, ?_⟩
  · rw [h.1 rfl rfl]
    simp [removeTradeOpen, metaC3, emptyMeta, tradeC3, baseTrade]
  · rw [h2.2 hfind (by simp [parentC3, childC3, baseTrade])]
    simp [updateTradeRef, metaC3b, emptyMeta, parentC3, childC3, baseTrade]
    norm_num

/-! ### C9: balance-history invariants -/

lemma updateSliceStats_date (h : BalanceHistory) (b : ℚ) (f : Option ℚ) (mn mx : ℤ)
    (et : Option EntryType) : (updateSliceStats h b f mn mx et).date = h.date := by
  unfold updateSliceStats
  dsimp only
  repeat' split
  all_goals rfl

lemma updateSliceStats_fees (h : BalanceHistory) (b : ℚ) (f : Option ℚ) (mn mx : ℤ)
    (et : Option EntryType) :
    (updateSliceStats h b f mn mx et).estimatedFees = h.estimatedFees + f.getD 0 := by
  unfold updateSliceStats
  dsimp only
  repeat' split
  all_goals rfl

lemma dropOldSlices_spec (cutoff : ℤ) :
    ∀ (l : List BalanceHistory) (fees : ℚ),
      dropOldSlices cutoff fees l =
        (fees + ((l.takeWhile (fun h => decide (h.date ≤ cutoff))).map
            BalanceHistory.estimatedFees).sum,
         l.dropWhile (fun h => decide (h.date ≤ cutoff))) := by
  intro l
  induction l with
  | nil => intro fees; simp [dropOldSlices]
  | cons h1 rest ih =>
    intro fees
    by_cases hc : h1.date ≤ cutoff
    · rw [List.takeWhile_cons_of_pos (by simpa using hc),
        List.dropWhile_cons_of_pos (by simpa using hc)]
      simp only [dropOldSlices, if_pos hc, ih, List.map_cons, List.sum_cons]
      ring_nf
    · rw [List.takeWhile_cons_of_neg (by simpa using hc),
        List.dropWhile_cons_of_neg (by simpa using hc)]
      simp [dropOldSlices, if_neg hc]

lemma applyRetention_cons (cutoff : ℤ) (h0 : BalanceHistory) (rest : List BalanceHistory) :
    applyRetention cutoff (h0 :: rest) =
      { h0 with estimatedFees := h0.estimatedFees +
          ((rest.takeWhile (fun h => decide (h.date ≤ cutoff))).map
            BalanceHistory.estimatedFees).sum }
        :: rest.dropWhile (fun h => decide (h.date ≤ cutoff)) := by
  simp [applyRetention, dropOldSlices_spec]

lemma dropWhile_all_gt (cutoff : ℤ) :
    ∀ l : List BalanceHistory, l.Pairwise (fun a b => a.date < b.date) →
      ∀ e ∈ l.dropWhile (fun h => decide (h.date ≤ cutoff)), cutoff < e.date := by
  intro l
  induction l with
  | nil => simp
  | cons a t ih =>
    intro hs e he
    rcases List.pairwise_cons.mp hs with ⟨ha, ht⟩
    by_cases hc : a.date ≤ cutoff
    · rw [List.dropWhile_cons_of_pos (by simpa using hc)] at he
      exact ih ht e he
    · rw [List.dropWhile_cons_of_neg (by simpa using hc)] at he
      rcases List.mem_cons.mp he with rfl | he2
      · exact lt_of_not_le hc
      · exact lt_trans (lt_of_not_le hc) (ha e he2)

/-- Combined effects of the retention step: sortedness is kept, the head's
date is kept, every later slice is younger than the cutoff, and the total
estimated fees are conserved. -/
lemma applyRetention_conclusions (cutoff : ℤ) (l : List BalanceHistory)
    (hs : l.Pairwise (fun a b => a.date < b.date)) :
    (applyRetention cutoff l).Pairwise (fun a b => a.date < b.date) ∧
    ((applyRetention cutoff l).map BalanceHistory.date).head?
      = (l.map BalanceHistory.date).head? ∧
    (∀ e ∈ (applyRetention cutoff l).tail, cutoff < e.date) ∧
    ((applyRetention cutoff l).map BalanceHistory.estimatedFees).sum =
      (l.map BalanceHistory.estimatedFees).sum := by
  cases l with
  | nil => simp [applyRetention]
  | cons h0 rest =>
    rw [applyRetention_cons]
    rcases List.pairwise_cons.mp hs with ⟨h0lt, hrest⟩
    refine ⟨?_, by simp, ?_, ?_⟩
    · refine List.pairwise_cons.mpr ⟨?_, hrest.sublist (List.dropWhile_sublist _)⟩
      intro b hb
      exact h0lt b ((List.dropWhile_sublist _).subset hb)
    · intro e he
      exact dropWhile_all_gt cutoff rest hrest e (by simpa using he)
    · have hsplit := congrArg
        (fun m : List BalanceHistory => ((m.map BalanceHistory.estimatedFees).sum : ℚ))
        (List.takeWhile_append_dropWhile (p := fun h => decide (h.date ≤ cutoff)) (l := rest))
      simp only [List.map_append, List.sum_append] at hsplit
      simp only [List.map_cons, List.sum_cons]
      linarith [hsplit]

lemma mem_le_getLast {l : List BalanceHistory} {x : BalanceHistory}
    (hs : l.Pairwise (fun a b => a.date < b.date)) (hx : l.getLast? = some x) :
    ∀ e ∈ l, e.date ≤ x.date := by
  induction l with
  | nil => exact absurd hx (by simp)
  | cons a t ih =>
    rcases List.pairwise_cons.mp hs with ⟨ha, ht⟩
    cases t with
    | nil =>
      intro e he
      have hax : a = x := by simpa using hx
      rcases List.mem_singleton.mp he with rfl
      exact le_of_eq (congrArg BalanceHistory.date hax)
    | cons b t2 =>
      have hx2 : (b :: t2).getLast? = some x := by simpa using hx
      intro e he
      rcases List.mem_cons.mp he with rfl | he2
      · have hb := ih ht hx2 b (by simp)
        exact le_of_lt (lt_of_lt_of_le (ha b (by simp)) hb)
      · exact ih ht hx2 e he2

/-- C9 (amended): `updateBalanceHistory` keeps the per-(mode, quote) history
strictly increasing in day timestamps, never loses the first slice, leaves
every slice after the first younger than one year (so at most the first
slice is older), and conserves estimated fees: the total grows by exactly
the posted fee, with dropped slices rolled into the first. -/
theorem updateBalanceHistory_invariants (tradesOpen : List TradeOpen)
    (markets : String → Option Market) (tradingType : TradingType) (quote : String)
    (now : ℤ) (entryType : Option EntryType) (balanceIn change fee : Option ℚ)
    (hist : List BalanceHistory)
    (hsort : hist.Pairwise (fun a b => a.date < b.date))
    (hle : ∀ e ∈ hist, e.date ≤ utcDayStart now)
    (hne : hist ≠ [] ∨ balanceIn.isSome) :
    (updateBalanceHistory tradesOpen markets tradingType quote now entryType balanceIn
        change fee hist).Pairwise (fun a b => a.date < b.date) ∧
    (hist ≠ [] →
      ((updateBalanceHistory tradesOpen markets tradingType quote now entryType balanceIn
          change fee hist).map BalanceHistory.date).head?
        = (hist.map BalanceHistory.date).head?) ∧
    (∀ e ∈ (updateBalanceHistory tradesOpen markets tradingType quote now entryType balanceIn
        change fee hist).tail, lastYearCutoff now < e.date) ∧
    ((updateBalanceHistory tradesOpen markets tradingType quote now entryType balanceIn
        change fee hist).map BalanceHistory.estimatedFees).sum =
      (hist.map BalanceHistory.estimatedFees).sum + fee.getD 0 := by
  cases hl : hist.getLast? with
  | none =>
    have hnil : hist = [] := by simpa using hl
    subst hnil
    cases hb : balanceIn with
    | none => simp [hb] at hne
    | some b =>
      have hu : updateBalanceHistory tradesOpen markets tradingType quote now entryType
          (some b) change fee []
          = applyRetention (lastYearCutoff now)
              [updateSliceStats (BalanceHistory.make now b) (b + change.getD 0) fee
                (maxOpenTradeCount tradesOpen markets tradingType quote entryType -
                  (if entryType.isSome then 1 else 0))
                (maxOpenTradeCount tradesOpen markets tradingType quote entryType) entryType] := by
        unfold updateBalanceHistory
        rfl
      rw [hu, applyRetention_cons]
      refine ⟨by simp, by simp, by simp, ?_⟩
      simp [updateSliceStats_fees, BalanceHistory.make]
  | some h =>
    have hnil : hist ≠ [] := by
      intro hc
      rw [hc] at hl
      simp at hl
    have hlast : ∀ e ∈ hist, e.date ≤ h.date := mem_le_getLast hsort hl
    have hballast : (Option.map BalanceHistory.closeBalance (some h)).getD 0 = h.closeBalance := rfl
    by_cases hpush : h.date = utcDayStart now
    · -- same day: the last slice is replaced by its statistics update
      have hu : updateBalanceHistory tradesOpen markets tradingType quote now entryType
          balanceIn change fee hist
          = applyRetention (lastYearCutoff now)
              (hist.dropLast ++
                [updateSliceStats h ((balanceIn.getD h.closeBalance) + change.getD 0) fee
                  (maxOpenTradeCount tradesOpen markets tradingType quote entryType -
                    (if entryType.isSome then 1 else 0))
                  (maxOpenTradeCount tradesOpen markets tradingType quote entryType)
                  entryType]) := by
        unfold updateBalanceHistory
        rw [hl]
        cases balanceIn with
        | none =>
          dsimp only
          rw [if_neg (not_not_intro (by simpa [BalanceHistory.make] using hpush)), hl]
          rfl
        | some b =>
          dsimp only
          rw [if_neg (not_not_intro (by simpa [BalanceHistory.make] using hpush)), hl]
          rfl
      set stats := updateSliceStats h ((balanceIn.getD h.closeBalance) + change.getD 0) fee
        (maxOpenTradeCount tradesOpen markets tradingType quote entryType -
          (if entryType.isSome then 1 else 0))
        (maxOpenTradeCount tradesOpen markets tradingType quote entryType) entryType with hstats
      have hdates : (hist.dropLast ++ [stats]).map BalanceHistory.date
          = hist.map BalanceHistory.date := by
        conv_rhs => rw [← List.dropLast_concat_getLast hnil]
        have hgl : hist.getLast hnil = h := by
          have := List.getLast?_eq_getLast hist hnil
          rw [hl] at this
          exact (Option.some.injEq _ _).mp this.symm
        simp [hgl, hstats, updateSliceStats_date]
      have hsort2 : (hist.dropLast ++ [stats]).Pairwise (fun a b => a.date < b.date) := by
        rw [← List.pairwise_map (f := BalanceHistory.date), hdates,
          List.pairwise_map (f := BalanceHistory.date)]
        exact hsort
      have hc := applyRetention_conclusions (lastYearCutoff now) (hist.dropLast ++ [stats]) hsort2
      rw [hu]
      refine ⟨hc.1, fun _ => by rw [hc.2.1, hdates], hc.2.2.1, ?_⟩
      rw [hc.2.2.2]
      have hfees : ((hist.dropLast ++ [stats]).map BalanceHistory.estimatedFees).sum
          = (hist.map BalanceHistory.estimatedFees).sum + fee.getD 0 := by
        conv_rhs => rw [← List.dropLast_concat_getLast hnil]
        have hgl : hist.getLast hnil = h := by
          have := List.getLast?_eq_getLast hist hnil
          rw [hl] at this
          exact (Option.some.injEq _ _).mp this.symm
        simp only [List.map_append, List.sum_append, List.map_cons, List.sum_cons,
          List.map_nil, List.sum_nil, hgl, hstats, updateSliceStats_fees]
        ring
      exact hfees
    · -- new day: a fresh slice is pushed and updated
      have hu : updateBalanceHistory tradesOpen markets tradingType quote now entryType
          balanceIn change fee hist
          = applyRetention (lastYearCutoff now)
              (hist ++
                [updateSliceStats (BalanceHistory.make now (balanceIn.getD h.closeBalance))
                  ((balanceIn.getD h.closeBalance) + change.getD 0) fee
                  (maxOpenTradeCount tradesOpen markets tradingType quote entryType -
                    (if entryType.isSome then 1 else 0))
                  (maxOpenTradeCount tradesOpen markets tradingType quote entryType)
                  entryType]) := by
        unfold updateBalanceHistory
        rw [hl]
        cases balanceIn with
        | none =>
          dsimp only
          rw [if_pos (by simpa [BalanceHistory.make] using hpush), List.getLast?_concat,
            List.dropLast_concat]
          rfl
        | some b =>
          dsimp only
          rw [if_pos (by simpa [BalanceHistory.make] using hpush), List.getLast?_concat,
            List.dropLast_concat]
          rfl
      set stats := updateSliceStats (BalanceHistory.make now (balanceIn.getD h.closeBalance))
        ((balanceIn.getD h.closeBalance) + change.getD 0) fee
        (maxOpenTradeCount tradesOpen markets tradingType quote entryType -
          (if entryType.isSome then 1 else 0))
        (maxOpenTradeCount tradesOpen markets tradingType quote entryType) entryType with hstats
      have hsdate : stats.date = utcDayStart now := by
        rw [hstats, updateSliceStats_date]
        rfl
      have hmemh : h ∈ hist := List.mem_of_getLast?_eq_some hl
      have hhlt : h.date < utcDayStart now := lt_of_le_of_ne (hle h hmemh) hpush
      have hltall : ∀ e ∈ hist, e.date < utcDayStart now := fun e he =>
        lt_of_le_of_lt (hlast e he) hhlt
      have hsort2 : (hist ++ [stats]).Pairwise (fun a b => a.date < b.date) := by
        refine List.pairwise_append.mpr ⟨hsort, by simp, ?_⟩
        intro a ha b hb
        rcases List.mem_singleton.mp hb with rfl
        rw [hsdate]
        exact hltall a ha
      have hc := applyRetention_conclusions (lastYearCutoff now) (hist ++ [stats]) hsort2
      rw [hu]
      refine ⟨hc.1, fun _ => ?_, hc.2.2.1, ?_⟩
      · rw [hc.2.1]
        cases hist with
        | nil => exact absurd rfl hnil
        | cons a t => simp
      · rw [hc.2.2.2]
        have : stats.estimatedFees = fee.getD 0 := by
          rw [hstats, updateSliceStats_fees]
          simp [BalanceHistory.make]
        simp [this]

/-- C9 counterexample: updating a fresh (empty) history at time 0 gives a
single slice dated today, so the maintained list contains zero — not exactly
one — entries older than one year. -/
theorem updateBalanceHistory_not_exactly_one_old :
    ((updateBalanceHistory [] (fun _ => none) TradingType.real "BTC" 0 none (some 1) none none
        []).filter (fun h => decide (h.date ≤ lastYearCutoff 0))).length ≠ 1 := by
  have hu : updateBalanceHistory [] (fun _ => none) TradingType.real "BTC" 0 none (some 1)
      none none []
      = applyRetention (lastYearCutoff 0)
          [updateSliceStats (BalanceHistory.make 0 1) (1 + (none : Option ℚ).getD 0) none
            (maxOpenTradeCount [] (fun _ => none) TradingType.real "BTC" none -
              (if (none : Option EntryType).isSome then 1 else 0))
            (maxOpenTradeCount [] (fun _ => none) TradingType.real "BTC" none) none] := by
    unfold updateBalanceHistory
    rfl
  rw [hu, applyRetention_cons]
  simp only [List.takeWhile_nil, List.dropWhile_nil, List.map_nil, List.sum_nil,
    List.filter_cons, List.filter_nil, updateSliceStats_date]
  norm_num [BalanceHistory.make, lastYearCutoff, utcDayStart, dayMs]

/-- A balance-history slice 400 days old carrying 5 units of fees. -/
def oldSlice : BalanceHistory :=
  { date := -34560000000, openBalance := 1, closeBalance := 1, estimatedFees := 5,
    profitLoss := 0, minOpenTrades := none, maxOpenTrades := none,
    totalOpenedTrades := 0, totalClosedTrades := 0 }

/-- A balance-history slice 370 days old carrying 7 units of fees. -/
def midSlice : BalanceHistory :=
  { date := -31968000000, openBalance := 1, closeBalance := 2, estimatedFees := 7,
    profitLoss := 0, minOpenTrades := none, maxOpenTrades := none,
    totalOpenedTrades := 1, totalClosedTrades := 1 }

/-- C9 witness: updating a history holding a 400-day-old and a 370-day-old
slice keeps the first slice's date and conserves total fees (plus the new
0.1 fee), the 370-day-old slice being dropped into the first. -/
theorem updateBalanceHistory_invariants_witness :
    ((updateBalanceHistory [] (fun _ => none) TradingType.real "BTC" 0 none none none
        (some (1/10)) [oldSlice, midSlice]).map BalanceHistory.date).head?
      = ([oldSlice, midSlice].map BalanceHistory.date).head? ∧
    ((updateBalanceHistory [] (fun _ => none) TradingType.real "BTC" 0 none none none
        (some (1/10)) [oldSlice, midSlice]).map BalanceHistory.estimatedFees).sum
      = ([oldSlice, midSlice].map BalanceHistory.estimatedFees).sum +
        (some (1/10) : Option ℚ).getD 0 := by
  have hsort : List.Pairwise (fun a b : BalanceHistory => a.date < b.date)
      [oldSlice, midSlice] := by
    simp [List.pairwise_cons, oldSlice, midSlice]
  have hle : ∀ e ∈ [oldSlice, midSlice], e.date ≤ utcDayStart 0 := by
    intro e he
    rcases List.mem_cons.mp he with rfl | he2
    · norm_num [oldSlice, utcDayStart, dayMs]
    · rcases List.mem_singleton.mp he2 with rfl
      norm_num [midSlice, utcDayStart, dayMs]
  have h := updateBalanceHistory_invariants [] (fun _ => none) TradingType.real "BTC" 0 none
    none none (some (1/10)) [oldSlice, midSlice] hsort hle (Or.inl (by simp))
  exact ⟨h.2.1 (by simp), h.2.2.2⟩

/-! ### C8: idempotence of quantity legalisation -/

lemma aTP_le (market : Market) (hs : 0 < market.step) (q : ℚ) :
    amountToPrecision market q ≤ q := by
  unfold amountToPrecision
  calc market.step * (⌊q / market.step⌋ : ℚ) ≤ market.step * (q / market.step) :=
        mul_le_mul_of_nonneg_left (Int.floor_le _) (le_of_lt hs)
    _ = q := by field_simp

lemma lt_aTP_add (market : Market) (hs : 0 < market.step) (q : ℚ) :
    q < amountToPrecision market q + market.step := by
  unfold amountToPrecision
  have h := Int.lt_floor_add_one (q / market.step)
  calc q = market.step * (q / market.step) := by field_simp
    _ < market.step * ((⌊q / market.step⌋ : ℚ) + 1) := mul_lt_mul_of_pos_left h hs
    _ = market.step * ⌊q / market.step⌋ + market.step := by ring

lemma aTP_mono (market : Market) (hs : 0 < market.step) {a b : ℚ} (h : a ≤ b) :
    amountToPrecision market a ≤ amountToPrecision market b := by
  unfold amountToPrecision
  have hf : ⌊a / market.step⌋ ≤ ⌊b / market.step⌋ :=
    Int.floor_le_floor ((div_le_div_iff_of_pos_right hs).mpr h)
  exact mul_le_mul_of_nonneg_left (by exact_mod_cast hf) (le_of_lt hs)

lemma aTP_idem (market : Market) (hs : 0 < market.step) (q : ℚ) :
    amountToPrecision market (amountToPrecision market q) = amountToPrecision market q := by
  unfold amountToPrecision
  have h1 : (market.step * (⌊q / market.step⌋ : ℚ)) / market.step = (⌊q / market.step⌋ : ℚ) := by
    field_simp
  rw [h1, Int.floor_intCast]

lemma le_aTP (market : Market) (hs : 0 < market.step) {a b : ℚ}
    (ha : amountToPrecision market a = a) (h : a ≤ b) :
    a ≤ amountToPrecision market b := by
  rw [← ha]
  exact aTP_mono market hs h

lemma aTP_nonneg (market : Market) (hs : 0 < market.step) {q : ℚ} (h : 0 ≤ q) :
    0 ≤ amountToPrecision market q := by
  have h0 : amountToPrecision market 0 = 0 := by
    unfold amountToPrecision
    simp
  calc (0 : ℚ) = amountToPrecision market 0 := h0.symm
    _ ≤ _ := aTP_mono market hs h

lemma aTP_eq_zero (market : Market) (hs : 0 < market.step) {q : ℚ} (h0 : 0 ≤ q)
    (h1 : q < market.step) : amountToPrecision market q = 0 := by
  unfold amountToPrecision
  have hf : ⌊q / market.step⌋ = 0 := by
    rw [Int.floor_eq_zero_iff]
    exact ⟨by positivity, by rwa [div_lt_one hs]⟩
  rw [hf]
  simp

lemma aTP_add_left (market : Market) (hs : 0 < market.step) (a b : ℚ) :
    amountToPrecision market (amountToPrecision market a + b)
      = amountToPrecision market a + amountToPrecision market b := by
  unfold amountToPrecision
  have h1 : (market.step * (⌊a / market.step⌋ : ℚ) + b) / market.step
      = (⌊a / market.step⌋ : ℚ) + b / market.step := by
    field_simp
    ring
  rw [h1, Int.floor_int_add]
  push_cast
  ring

lemma aTP_step (market : Market) (hs : 0 < market.step) :
    amountToPrecision market market.step = market.step := by
  unfold amountToPrecision
  have h1 : market.step / market.step = ((1 : ℤ) : ℚ) := by
    field_simp
  rw [h1, Int.floor_intCast]
  simp

/-- `getLegalQty` without cost limits and maxima reduces to the minimum
clamp followed by truncation. -/
lemma getLegalQty_eq_none_cost (env : Env) (market : Market) (price x : ℚ)
    (hamax : market.limits.amount.max = none)
    (hmmax : market.limits.marketMax = none)
    (hcost : market.limits.cost = none) :
    getLegalQty env x market price =
      amountToPrecision market
        (if x < market.limits.amount.min then market.limits.amount.min else x) := by
  unfold getLegalQty
  rw [hamax, hmmax, hcost]

/-- `getLegalQty` with cost limits but no maxima reduces to the minimum
clamp, the minimum-cost reset, truncation, and the minimum-amount bump. -/
lemma getLegalQty_eq_some_cost (env : Env) (market : Market) (price x : ℚ)
    (hamax : market.limits.amount.max = none)
    (hmmax : market.limits.marketMax = none)
    {cl : CostLimits} (hcost : market.limits.cost = some cl) (hclmax : cl.max = none) :
    getLegalQty env x market price =
      (let m := market.limits.amount.min
       let a := if x < m then m else x
       let M := cl.min * (1 + env.MIN_COST_BUFFER)
       let a2 := if a * price < M then M / price else a
       let t := amountToPrecision market a2
       let t2 := if t * price < M then t + m else t
       amountToPrecision market t2) := by
  unfold getLegalQty getMinCost
  rw [hamax, hmmax, hcost]
  dsimp only
  rw [hclmax]

/-- C8 (amended): `getLegalQty` is idempotent for every market that defines
no maximum limits (amount max, hidden market max, cost max), every positive
price and every non-negative quantity — including the branch that adds the
minimum amount when the truncated cost falls below the buffered minimum
cost.  (With a maximum limit the bump can overshoot it, see the
counterexample.) -/
theorem getLegalQty_idem_of_no_max (env : Env) (market : Market) (price x : ℚ)
    (hamax : market.limits.amount.max = none)
    (hmmax : market.limits.marketMax = none)
    (hcmax : ∀ cl, market.limits.cost = some cl → cl.max = none)
    (hstep : 0 < market.step)
    (hmin : 0 ≤ market.limits.amount.min)
    (hprice : 0 < price)
    (hx : 0 ≤ x) :
    getLegalQty env (getLegalQty env x market price) market price
      = getLegalQty env x market price := by
  cases hcost : market.limits.cost with
  | none =>
    rw [getLegalQty_eq_none_cost env market price x hamax hmmax hcost]
    set m := market.limits.amount.min with hmdef
    set a := if x < m then m else x with hadef
    set r := amountToPrecision market a with hrdef
    rw [getLegalQty_eq_none_cost env market price r hamax hmmax hcost]
    have ham : m ≤ a := by
      by_cases hxm : x < m
      · rw [hadef, if_pos hxm]
      · rw [hadef, if_neg hxm]
        exact le_of_not_lt hxm
    have hridem : amountToPrecision market r = r := by
      rw [hrdef]
      exact aTP_idem market hstep a
    by_cases hrm : r < m
    · rw [if_pos hrm]
      have h1 : amountToPrecision market m ≤ r := hrdef ▸ aTP_mono market hstep ham
      have h2 : r ≤ amountToPrecision market m := le_aTP market hstep hridem (le_of_lt hrm)
      exact le_antisymm h1 h2
    · rw [if_neg hrm]
      exact hridem
  | some cl =>
    have hclmax := hcmax cl hcost
    rw [getLegalQty_eq_some_cost env market price x hamax hmmax hcost hclmax]
    dsimp only
    set m := market.limits.amount.min with hmdef
    set M := cl.min * (1 + env.MIN_COST_BUFFER) with hMdef
    set a := if x < m then m else x with hadef
    set a2 := if a * price < M then M / price else a with ha2def
    set t := amountToPrecision market a2 with htdef
    set t2 := if t * price < M then t + m else t with ht2def
    set r := amountToPrecision market t2 with hrdef
    rw [getLegalQty_eq_some_cost env market price r hamax hmmax hcost hclmax]
    dsimp only
    have hprice0 : price ≠ 0 := ne_of_gt hprice
    have ham : m ≤ a := by
      by_cases hxm : x < m
      · rw [hadef, if_pos hxm]
      · rw [hadef, if_neg hxm]
        exact le_of_not_lt hxm
    have hMa2 : M ≤ a2 * price := by
      by_cases hc : a * price < M
      · rw [ha2def, if_pos hc, div_mul_cancel₀ _ hprice0]
      · rw [ha2def, if_neg hc]
        exact le_of_not_lt hc
    have hma2 : m ≤ a2 := by
      by_cases hc : a * price < M
      · rw [ha2def, if_pos hc]
        have hlt : a < M / price := (lt_div_iff hprice).mpr hc
        exact le_of_lt (lt_of_le_of_lt ham hlt)
      · rw [ha2def, if_neg hc]
        exact ham
    have ha2nn : 0 ≤ a2 := le_trans hmin hma2
    have htnn : 0 ≤ t := htdef ▸ aTP_nonneg market hstep ha2nn
    have htidem : amountToPrecision market t = t := htdef ▸ aTP_idem market hstep a2
    have hta2 : t ≤ a2 := htdef ▸ aTP_le market hstep a2
    have ha2t : a2 < t + market.step := htdef ▸ lt_aTP_add market hstep a2
    by_cases hb : t * price < M
    · -- the bump branch was taken
      have ht2 : t2 = t + m := by rw [ht2def, if_pos hb]
      have hr : r = t + amountToPrecision market m := by
        rw [hrdef, ht2, htdef]
        exact aTP_add_left market hstep a2 m
      have hMp : M / price ≤ a2 := (div_le_iff hprice).mpr hMa2
      have htlt : t < M / price := (lt_div_iff hprice).mpr hb
      have hTMp : amountToPrecision market (M / price) = t := by
        refine le_antisymm ?_ (le_aTP market hstep htidem (le_of_lt htlt))
        rw [htdef]
        exact aTP_mono market hstep hMp
      by_cases hms : m < market.step
      · -- the minimum amount truncates away
        have hm0 : amountToPrecision market m = 0 := aTP_eq_zero market hstep hmin hms
        have hrt : r = t := by rw [hr, hm0, add_zero]
        have hM0 : (0 : ℚ) < M := lt_of_le_of_lt (mul_nonneg htnn (le_of_lt hprice)) hb
        by_cases htm : t < m
        · have ht0 : t = 0 := by
            have h0 := aTP_eq_zero market hstep htnn (lt_trans htm hms)
            rw [htidem] at h0
            exact h0
          have hrmlt : r < m := by rw [hrt]; exact htm
          by_cases hmM : m * price < M
          · simp only [if_pos hrmlt, if_pos hmM, hTMp, if_pos hb]
            rw [hrdef, ht2]
          · have h0M : amountToPrecision market m * price < M := by
              rw [hm0, zero_mul]
              exact hM0
            simp only [if_pos hrmlt, if_neg hmM, if_pos h0M]
            rw [hm0, zero_add, hm0, hrt, ht0]
        · have hrm : ¬ (r < m) := by rw [hrt]; exact htm
          have hrM : r * price < M := by rw [hrt]; exact hb
          simp only [if_neg hrm, if_pos hrM, hTMp, if_pos hb]
          rw [hrdef, ht2]
      · -- the minimum amount is at least one whole step
        have hsm := le_of_not_lt hms
        have hmm : market.step ≤ amountToPrecision market m :=
          le_aTP market hstep (aTP_step market hstep) hsm
        have hts : market.step ≤ t :=
          htdef ▸ le_aTP market hstep (aTP_step market hstep) (le_trans hsm hma2)
        have hrm2 : m ≤ r := by
          have h1 : m < amountToPrecision market m + market.step := lt_aTP_add market hstep m
          rw [hr]
          linarith
        have hMr : M < r * price := by
          have h1 : a2 < r := by
            rw [hr]
            linarith
          calc M ≤ a2 * price := hMa2
            _ < r * price := mul_lt_mul_of_pos_right h1 hprice
        have hrm' : ¬ (r < m) := not_lt.mpr hrm2
        have hrM' : ¬ (r * price < M) := not_lt.mpr (le_of_lt hMr)
        have hrid : amountToPrecision market r = r := by
          rw [hr]
          calc amountToPrecision market (t + amountToPrecision market m)
              = t + amountToPrecision market (amountToPrecision market m) := by
                rw [htdef]
                exact aTP_add_left market hstep a2 _
            _ = t + amountToPrecision market m := by rw [aTP_idem market hstep]
        simp only [if_neg hrm', if_neg hrM', hrid]
    · -- no bump: the truncated quantity already satisfies the minimum cost
      have ht2 : t2 = t := by rw [ht2def, if_neg hb]
      have hrt : r = t := by
        rw [hrdef, ht2]
        exact htidem
      have hnb : ¬ (r * price < M) := by rw [hrt]; exact hb
      have hrid : amountToPrecision market r = r := by rw [hrt]; exact htidem
      by_cases hrm : r < m
      · have hrem : r = amountToPrecision market m := by
          refine le_antisymm (le_aTP market hstep hrid (le_of_lt hrm)) ?_
          have : amountToPrecision market m ≤ t := htdef ▸ aTP_mono market hstep hma2
          rw [hrt]
          exact this
        have hMm : ¬ (m * price < M) := by
          have h1 : r * price < m * price := mul_lt_mul_of_pos_right hrm hprice
          have h2 : M ≤ r * price := le_of_not_lt hnb
          exact not_lt.mpr (le_of_lt (lt_of_le_of_lt h2 h1))
        simp only [if_pos hrm, if_neg hMm, ← hrem, if_neg hnb, hrid]
      · simp only [if_neg hrm, if_neg hnb, hrid]

/-- A market on which the minimum-amount bump overshoots the maximum:
amounts in [5, 13.7] with unit step, minimum cost 12.5. -/
def marketC8 : Market :=
  { symbol := "AAABTC", base := "AAA", quote := "BTC", active := true, spot := true,
    margin := false,
    limits := { amount := { min := 5, max := some (137/10) },
                cost := some { min := 25/2, max := none },
                marketMax := none },
    step := 1 }

/-- C8 counterexample: at price 1 on `marketC8`, quantity 12.6 legalises to
17 (truncation to 12 dropped the cost below 12.5, so the minimum amount 5
was added), but legalising 17 again clamps to the 13.7 maximum and returns
13 — quantity legalisation is not idempotent. -/
theorem getLegalQty_not_idempotent :
    getLegalQty sampleEnv (getLegalQty sampleEnv (63/5) marketC8 1) marketC8 1
      ≠ getLegalQty sampleEnv (63/5) marketC8 1 := by
  have h1 : getLegalQty sampleEnv (63/5) marketC8 1 = 17 := by
    norm_num [getLegalQty, getMinCost, marketC8, sampleEnv, truthy, amountToPrecision]
  have h2 : getLegalQty sampleEnv 17 marketC8 1 = 13 := by
    norm_num [getLegalQty, getMinCost, marketC8, sampleEnv, truthy, amountToPrecision]
  rw [h1, h2]
  norm_num

/-- The same market without any maximum limits. -/
def openMarketC8 : Market :=
  { marketC8 with
    limits := { amount := { min := 5, max := none },
                cost := some { min := 25/2, max := none },
                marketMax := none } }

/-- C8 witness (amended): on the max-free market the same input 12.6 is
legalised idempotently. -/
theorem getLegalQty_idem_of_no_max_witness :
    openMarketC8.limits.amount.max = none ∧
    openMarketC8.limits.marketMax = none ∧
    (0 : ℚ) < openMarketC8.step ∧
    (0 : ℚ) ≤ openMarketC8.limits.amount.min ∧
    (0 : ℚ) ≤ (63/5 : ℚ) ∧
    getLegalQty sampleEnv (getLegalQty sampleEnv (63/5) openMarketC8 1) openMarketC8 1
      = getLegalQty sampleEnv (63/5) openMarketC8 1 :=
  ⟨rfl, rfl, by norm_num [openMarketC8, marketC8], by norm_num [openMarketC8, marketC8],
    by norm_num,
    getLegalQty_idem_of_no_max sampleEnv openMarketC8 1 (63/5) rfl rfl
      (fun cl hcl => by rw [← Option.some.inj hcl])
      (by norm_num [openMarketC8, marketC8]) (by norm_num [openMarketC8, marketC8])
      (by norm_num) (by norm_num)⟩

end NBT
